import Mathlib

/-!
Shallow embedding of the flight-selection engine of `src/logic/filter.py`
(together with `src/currencies/cash.py`, `src/currencies/mileage.py` and
`src/data_types/summary_objs.py`), and proofs of the frozen claims about it.

Modelling conventions:
* Python `int` is `Int`; Python floor division `//` is `Int.fdiv`.
* Monetary amounts are integers in cents, exactly as in the source.
* Distances and float quantities are modelled as exact rationals (`Rat`);
  `geopy.distance.great_circle` is an external library and is passed in as an
  explicit function parameter of the environment.
* Python `dict`s (which preserve insertion order) are association lists.
* Python exceptions are `Except PyErr`; `None`-or-value results are `Option`.
* `list.sort` / `sorted` (CPython timsort) is a stable ascending sort; it is
  modelled by the stable insertion sort `sortLe` below, which computes the
  same list as any stable sort for a total transitive comparator.
* `random.shuffle` is modelled as an explicit list transformation parameter.
* Travel dates (`pd.to_datetime` at day granularity) are day numbers (`Int`),
  so `(r - o).days` is plain subtraction.
-/

namespace FlightFilter

/-! ### Stable sorting (model of CPython's stable `list.sort` / `sorted`) -/

/-- Insert `a` into `l` in front of the first element `b` with `le a b`.
With `le x y` meaning "key of x is at most key of y", this reproduces where a
stable ascending sort places an element relative to the already-sorted rest. -/
def insertLe (le : α → α → Bool) (a : α) : List α → List α
  | [] => [a]
  | b :: l => if le a b then a :: b :: l else b :: insertLe le a l

/-- Stable ascending sort by the boolean comparator `le`.  For a total and
transitive `le` this is the unique stable ascending ordering, hence it agrees
with CPython's timsort. -/
def sortLe (le : α → α → Bool) : List α → List α
  | [] => []
  | b :: l => insertLe le b (sortLe le l)

theorem insertLe_perm (le : α → α → Bool) (a : α) :
    ∀ l : List α, (insertLe le a l).Perm (a :: l)
  | [] => List.Perm.refl _
  | b :: l => by
    unfold insertLe
    by_cases h : le a b
    · simp [h]
    · simp only [h]
      exact ((insertLe_perm le a l).cons b).trans (List.Perm.swap a b l)

theorem sortLe_perm (le : α → α → Bool) : ∀ l : List α, (sortLe le l).Perm l
  | [] => List.Perm.refl _
  | b :: l => (insertLe_perm le b (sortLe le l)).trans ((sortLe_perm le l).cons b)

theorem mem_sortLe {le : α → α → Bool} {l : List α} {x : α} :
    x ∈ sortLe le l ↔ x ∈ l :=
  (sortLe_perm le l).mem_iff

theorem insertLe_pairwise {le : α → α → Bool}
    (htrans : ∀ a b c, le a b = true → le b c = true → le a c = true)
    (htot : ∀ a b, le a b = true ∨ le b a = true) (a : α) :
    ∀ l : List α, l.Pairwise (fun x y => le x y = true) →
      (insertLe le a l).Pairwise (fun x y => le x y = true)
  | [], _ => by simp [insertLe]
  | b :: l, hp => by
    unfold insertLe
    rcases List.pairwise_cons.mp hp with ⟨hb, hl⟩
    by_cases h : le a b
    · simp only [h, if_true]
      refine List.pairwise_cons.mpr ⟨?_, hp⟩
      intro y hy
      rcases List.mem_cons.mp hy with rfl | hy
      · exact h
      · exact htrans a b y h (hb y hy)
    · simp only [h, if_false]
      have hba : le b a = true := (htot a b).resolve_left (by simpa using h)
      refine List.pairwise_cons.mpr ⟨?_, insertLe_pairwise htrans htot a l hl⟩
      intro y hy
      have := (insertLe_perm le a l).mem_iff.mp hy
      rcases List.mem_cons.mp this with rfl | hy'
      · exact hba
      · exact hb y hy'

theorem sortLe_pairwise {le : α → α → Bool}
    (htrans : ∀ a b c, le a b = true → le b c = true → le a c = true)
    (htot : ∀ a b, le a b = true ∨ le b a = true) :
    ∀ l : List α, (sortLe le l).Pairwise (fun x y => le x y = true)
  | [] => List.Pairwise.nil
  | b :: l => insertLe_pairwise htrans htot b _ (sortLe_pairwise htrans htot l)

/-- The first element of a stable ascending sort is a minimum. -/
theorem sortLe_head_min {le : α → α → Bool}
    (htrans : ∀ a b c, le a b = true → le b c = true → le a c = true)
    (htot : ∀ a b, le a b = true ∨ le b a = true)
    (hrefl : ∀ a, le a a = true) {l : List α} {h : α} {t : List α}
    (he : sortLe le l = h :: t) : ∀ x ∈ sortLe le l, le h x = true := by
  intro x hx
  rw [he] at hx
  rcases List.mem_cons.mp hx with rfl | hx
  · exact hrefl x
  · have := sortLe_pairwise htrans htot l
    rw [he] at this
    exact (List.pairwise_cons.mp this).1 x hx

/-! ### Python-level error and value model -/

/-- Python exceptions raised by the modelled code paths:
`TypeError` (bad constructor keywords), `ValueError` (the explicit raises in
the source) and `ZeroDivisionError` (division by an integer zero). -/
inductive PyErr
  | typeError
  | valueError
  | zeroDivError
  deriving DecidableEq, Repr

/-- Cabin classes, in declaration order of `data_types/enums.py`. -/
inductive CABIN
  | Y
  | W
  | J
  | F
  deriving DecidableEq, Repr

/-- All cabins, in enum iteration order (`[cabin for cabin in CABIN]`). -/
def allCabins : List CABIN := [.Y, .W, .J, .F]

/-- Airline sources (`data_types/enums.py`). -/
inductive SOURCE
  | AZUL
  | SMILES
  | QANTAS
  deriving DecidableEq, Repr

/-- The `.value` string of a `SOURCE` member. -/
def SOURCE.value : SOURCE → String
  | .AZUL => "azul"
  | .SMILES => "smiles"
  | .QANTAS => "qantas"

/-! ### Data classes of `data_types/summary_objs.py` -/

/-- The `summary_trip` dataclass: fields `ID`, `city`, `totalCost`,
`distance`, exactly as declared in `summary_objs.py`.  `distance` may be the
Python `None` produced by the normalizer when coordinates are missing. -/
structure summary_trip where
  ID : String
  city : String
  totalCost : Int
  distance : Option Rat
  deriving DecidableEq, Repr

/-- The `summary_round_trip` dataclass: an outbound and a return leg. -/
structure summary_round_trip where
  outbound : summary_trip
  return_ : summary_trip
  deriving DecidableEq, Repr

/-- Values that appear as keyword arguments at the modelled call sites. -/
inductive PyVal
  | str (s : String)
  | int (i : Int)
  | dist (d : Option Rat)
  deriving DecidableEq, Repr

/-- The parameter names accepted by `summary_trip.__init__` (the dataclass
fields, in order). -/
def summary_trip_params : List String := ["ID", "city", "totalCost", "distance"]

/-- Look up a keyword in a keyword-argument list. -/
def kwlookup (kwargs : List (String × PyVal)) (k : String) : Option PyVal :=
  (kwargs.find? (fun kv => kv.1 = k)).map (fun kv => kv.2)

/-- CPython keyword binding for the `summary_trip` dataclass constructor:
a call raises `TypeError` if it passes a keyword that is not a declared
parameter, or omits a required parameter.  (Dataclasses do not type-check
field values at runtime, so the value patterns below merely decode our
`PyVal` encoding; every modelled call site passes the shapes shown.) -/
def summary_trip.fromKwargs (kwargs : List (String × PyVal)) :
    Except PyErr summary_trip :=
  if kwargs.all (fun kv => summary_trip_params.contains kv.1) then
    match kwlookup kwargs "ID", kwlookup kwargs "city",
        kwlookup kwargs "totalCost", kwlookup kwargs "distance" with
    | some (.str i), some (.str c), some (.int t), some (.dist d) =>
        .ok ⟨i, c, t, d⟩
    | _, _, _, _ => .error .typeError
  else .error .typeError

/-! ### `currencies/cash.py` — `CashHandler.convert_to_system_base` -/

/-- The cash handler: the configured base currency, and the rate cache.  A
cached entry is the integer conversion factor scaled by 100
(`normal_to_cents` of the real rate).  The network fetch path of
`fetch_rate` is unavailable inside a pass; a cache miss is modelled as the
`ValueError` that `convert_to_system_base` raises when no rate can be
obtained. -/
structure CashHandler where
  target_currency : String
  cache : String → Option Int

/-- `CashHandler.convert_to_system_base` (cash.py lines 99-117): identity when
the taxes currency already is the base currency, otherwise
`amount_in_cents * rate // 100` with the cached scaled-by-100 integer rate. -/
def convert_to_system_base (h : CashHandler) (amount_in_cents : Int)
    (base_currency : String) : Except PyErr Int :=
  if h.target_currency = base_currency then .ok amount_in_cents
  else
    match h.cache base_currency with
    | some rate => .ok (Int.fdiv (amount_in_cents * rate) 100)
    | none => .error .valueError

/-- `Mileage.get_mileage_value` (mileage.py lines 52-66): table lookup,
`ValueError` when the program is unknown. -/
def get_mileage_value (mileage_values : String → Option Int) (program : String) :
    Except PyErr Int :=
  match mileage_values program with
  | some v => .ok v
  | none => .error .valueError

/-! ### Raw and normalized records -/

/-- One entry of a bulk-availability batch, with the per-cabin dynamic fields
(`f"{cabin.name}Available"` and friends) modelled as functions on `CABIN`. -/
structure RawRecord where
  ID : String
  originAirport : String
  destinationAirport : String
  date : Int
  available : CABIN → Bool
  remainingSeats : CABIN → Int
  mileageCostRaw : CABIN → Int
  totalTaxes : CABIN → Int
  taxesCurrency : String

/-- The airport-metadata lookup tables of `config` used by the normalizer. -/
structure Config where
  IATA_CITY : String → Option String
  IATA_COUNTRY : String → Option String
  IATA_LATITUDE : String → Option Rat
  IATA_LONGITUDE : String → Option Rat

/-- Python truthiness of a coordinate lookup result: `None` and `0.0` are
falsy (the source guards with `config.IATA_LATITUDE.get(...) and ...`). -/
def coordTruthy : Option Rat → Bool
  | none => false
  | some x => x != 0

/-- A record after `__proccess_BulkAvailability`: city/country columns added,
rows with unresolvable airports dropped, `Distance` possibly `None`. -/
structure NRecord extends RawRecord where
  origin_city : String
  destination_city : String
  origin_country : String
  destination_country : String
  distance : Option Rat

/-- Environment of a pass: metadata tables, the external great-circle
distance function, the cash handler and the mileage table. -/
structure Env where
  cfg : Config
  greatCircle : Rat × Rat → Rat × Rat → Rat
  cash : CashHandler
  mileage_values : String → Option Int

/-- Normalization of one row (filter.py lines 344-364): map both airports to
city and country, drop the row if any lookup misses, and compute the
great-circle distance when all four coordinates are present and truthy. -/
def normalize_record (env : Env) (r : RawRecord) : Option NRecord :=
  match env.cfg.IATA_CITY r.originAirport, env.cfg.IATA_CITY r.destinationAirport,
      env.cfg.IATA_COUNTRY r.originAirport, env.cfg.IATA_COUNTRY r.destinationAirport with
  | some oc, some dc, some oco, some dco =>
      let la1 := env.cfg.IATA_LATITUDE r.originAirport
      let lo1 := env.cfg.IATA_LONGITUDE r.originAirport
      let la2 := env.cfg.IATA_LATITUDE r.destinationAirport
      let lo2 := env.cfg.IATA_LONGITUDE r.destinationAirport
      some { r with
        origin_city := oc, destination_city := dc
        origin_country := oco, destination_country := dco
        distance :=
          if coordTruthy la1 && coordTruthy lo1 && coordTruthy la2 && coordTruthy lo2 then
            some (env.greatCircle (la1.getD 0, lo1.getD 0) (la2.getD 0, lo2.getD 0))
          else none }
  | _, _, _, _ => none

/-- `Flight_Filter.__proccess_BulkAvailability` (filter.py lines 305-372) as a
row transformation: normalize every row, silently dropping unresolvable
ones.  (The surrounding `None` returns for empty input are handled at the
call sites, as in the source.) -/
def proccess_BulkAvailability (env : Env) (bulk : List RawRecord) : List NRecord :=
  bulk.filterMap (normalize_record env)

/-! ### Cabin partitioning and cost computation -/

/-- A row of the per-cabin DataFrame: the normalized record plus the
`TotalTaxes_Standard` and `TotalCost` columns. -/
structure CRecord extends NRecord where
  totalTaxesStd : Int
  totalCost : Int

/-- `Flight_Filter.__calc_cost` (filter.py lines 217-233):
`raw mileage cost * mileage value // 1000 + converted taxes`. -/
def calc_cost (mileageCostRaw mileage_value taxesStd : Int) : Int :=
  Int.fdiv (mileageCostRaw * mileage_value) 1000 + taxesStd

/-- The row-wise tax conversion and cost computation applied by
`__proccessCabinDf` (`df.apply` raises out of the method on the first failing
row, modelled by the sequential error propagation). -/
def convertRows (cash : CashHandler) (mv : Int) (cabin : CABIN) :
    List NRecord → Except PyErr (List CRecord)
  | [] => .ok []
  | r :: rs =>
    match convert_to_system_base cash (r.totalTaxes cabin) r.taxesCurrency with
    | .error e => .error e
    | .ok t =>
      match convertRows cash mv cabin rs with
      | .error e => .error e
      | .ok out =>
        .ok ({ toNRecord := r, totalTaxesStd := t,
               totalCost := calc_cost (r.mileageCostRaw cabin) mv t } :: out)

/-- `Flight_Filter.__proccessCabinDf` (filter.py lines 374-410): keep rows of
the cabin with the availability flag set and remaining seats positive, then
compute `TotalTaxes_Standard` and `TotalCost` for each retained row. -/
def proccessCabinDf (cash : CashHandler) (mv : Int) (cabin : CABIN)
    (recs : List NRecord) : Except PyErr (List CRecord) :=
  convertRows cash mv cabin
    (recs.filter (fun r => r.available cabin && decide (0 < r.remainingSeats cabin)))

/-! ### Filter predicate (`Flight_Filter.__filter_trip`, filter.py lines 239-303) -/

/-- The optional filter-criteria dictionary; an absent key is `none`.  (A
caller passing `filter=None` or the falsy `{}` is the `none` case of
`filt_gate` below.) -/
structure FilterCriteria where
  origin_country : Option String := none
  destination_country : Option String := none
  origin_cities : Option (List String) := none
  destination_cities : Option (List String) := none
  max_cost : Option Int := none
  min_distance : Option Rat := none
  max_distance : Option Rat := none
  exclude_origin_cities : Option (List String) := none
  exclude_destination_cities : Option (List String) := none

/-- `__filter_trip`: each supplied criterion must pass.  The cost and
distance criteria read `row.get("totalCost", 0)` and `row.get("distance", 0)`
but the DataFrame columns are named `TotalCost` and `Distance`, so those
lookups always yield the default `0`; the checks below therefore compare `0`
against the criterion, exactly as the source does at runtime.  The return
row is consequently never consulted (its only use is the missing
`"totalCost"` label). -/
def filter_trip (o : CRecord) (f : FilterCriteria) (ret : Option CRecord) : Bool :=
  (match f.origin_country with | some v => o.origin_country = v | none => true) &&
  (match f.destination_country with | some v => o.destination_country = v | none => true) &&
  (match f.origin_cities with | some v => v.contains o.origin_city | none => true) &&
  (match f.destination_cities with | some v => v.contains o.destination_city | none => true) &&
  -- max_cost: total_cost evaluates to 0 + (0 or 0) regardless of `ret`
  (match ret, f.max_cost with | _, some v => !(decide ((0 : Int) > v)) | _, none => true) &&
  (match f.min_distance with | some v => !(decide ((0 : Rat) < v)) | none => true) &&
  (match f.max_distance with | some v => !(decide ((0 : Rat) > v)) | none => true) &&
  (match f.exclude_origin_cities with | some v => !(v.contains o.origin_city) | none => true) &&
  (match f.exclude_destination_cities with | some v => !(v.contains o.destination_city) | none => true)

/-- The call-site guard `if filter and not self.__filter_trip(...)`: a `None`
(or empty, hence falsy) filter object skips filtering entirely. -/
def filt_gate : Option FilterCriteria → CRecord → Option CRecord → Bool
  | none, _, _ => true
  | some f, o, r => filter_trip o f r

/-! ### Round-trip pairing engine (filter.py lines 580-654) -/

/-- Python truthiness of the optional integer arguments `min_return_days` /
`max_return_days` (`if min_return_days and max_return_days:`): `None` and
`0` are falsy. -/
def optTruthyInt : Option Int → Bool
  | none => false
  | some v => v != 0

/-- The per-pair rejection logic of the inner pairing loop (filter.py lines
603-615): the return date must be strictly later than the outbound date;
when both day-window bounds are truthy the whole-day interval must lie
within them (inclusive); then the optional filter predicate must pass. -/
def pair_checks (minr maxr : Option Int) (flt : Option FilterCriteria)
    (outbound return_ : CRecord) : Bool :=
  if return_.date ≤ outbound.date then false
  else if optTruthyInt minr && optTruthyInt maxr then
    let interval := return_.date - outbound.date
    if interval < minr.getD 0 || interval > maxr.getD 0 then false
    else filt_gate flt outbound (some return_)
  else filt_gate flt outbound (some return_)

/-- The outbound × return cross-join of one city pairing, restricted to the
pairs that survive all three rejection checks; these are exactly the pairs
that reach the candidate-construction statements (filter.py lines 617-640). -/
def survivingPairs (minr maxr : Option Int) (flt : Option FilterCriteria)
    (group revgroup : List CRecord) : List (CRecord × CRecord) :=
  group.flatMap (fun o =>
    (revgroup.filter (fun r => pair_checks minr maxr flt o r)).map (fun r => (o, r)))

/-- The keyword arguments of the `summary_trip(...)` construction at filter.py
lines 486-492 and 618-631. -/
def trip_kwargs (row : CRecord) : List (String × PyVal) :=
  [("ID", PyVal.str row.ID), ("origin_city", PyVal.str row.origin_city),
   ("destination_city", PyVal.str row.destination_city),
   ("totalCost", PyVal.int row.totalCost), ("distance", PyVal.dist row.distance)]

/-- Construction of one round-trip candidate (filter.py lines 618-635): two
`summary_trip` keyword calls, then the (well-formed) `summary_round_trip`
call. -/
def build_round_trip (o r : CRecord) : Except PyErr summary_round_trip :=
  match summary_trip.fromKwargs (trip_kwargs o) with
  | .error e => .error e
  | .ok ot =>
    match summary_trip.fromKwargs (trip_kwargs r) with
    | .error e => .error e
    | .ok rt => .ok ⟨ot, rt⟩

/-- Sequential construction of all surviving candidates of one city pairing;
the first raising construction aborts the whole pass, as in the source. -/
def build_round_trips : List (CRecord × CRecord) → Except PyErr (List summary_round_trip)
  | [] => .ok []
  | p :: ps =>
    match build_round_trip p.1 p.2 with
    | .error e => .error e
    | .ok rt =>
      match build_round_trips ps with
      | .error e => .error e
      | .ok l => .ok (rt :: l)

/-- The `(origin_city, destination_city)` key of a row. -/
def rec_key (r : CRecord) : String × String := (r.origin_city, r.destination_city)

/-- Distinct group keys in first-occurrence order. -/
def distinctKeys (recs : List CRecord) : List (String × String) :=
  recs.foldl (fun acc r => if acc.contains (rec_key r) then acc else acc ++ [rec_key r]) []

/-- Code-point-wise lexicographic comparison of character lists, as Python
compares strings. -/
def strLtChars : List Char → List Char → Bool
  | [], [] => false
  | [], _ :: _ => true
  | _ :: _, [] => false
  | c :: cs, d :: ds =>
    if c.val < d.val then true else if d.val < c.val then false else strLtChars cs ds

/-- Python's `<` on strings (lexicographic by Unicode code point). -/
def strLt (a b : String) : Bool := strLtChars a.data b.data

/-- Lexicographic order on city-pair keys (pandas `groupby` sorts group keys
as Python tuples of strings). -/
def keyLe (a b : String × String) : Bool :=
  if a.1 = b.1 then !(strLt b.2 a.2) else strLt a.1 b.1

/-- The group keys of `cabin_df.groupby(["origin_city", "destination_city"])`
in pandas' sorted iteration order. -/
def sortedKeys (recs : List CRecord) : List (String × String) :=
  sortLe keyLe (distinctKeys recs)

/-- The rows of one group. -/
def group_of (recs : List CRecord) (k : String × String) : List CRecord :=
  recs.filter (fun r => r.origin_city = k.1 && r.destination_city = k.2)

/-- The reverse-direction rows of a group (filter.py lines 595-598). -/
def reverse_group_of (recs : List CRecord) (k : String × String) : List CRecord :=
  recs.filter (fun r => r.origin_city = k.2 && r.destination_city = k.1)

/-- The per-cabin loop over city pairings (filter.py lines 588-646): build
each pairing's candidate list, keep the pairings with at least one candidate.
(The `grouped_cabin.size == 0` check at line 582 compares a bound method with
`0` and is therefore never true; it is omitted.) -/
def cabin_groups_fold (minr maxr : Option Int) (flt : Option FilterCriteria)
    (recs : List CRecord) :
    List (String × String) →
      Except PyErr (List ((String × String) × List summary_round_trip))
  | [] => .ok []
  | k :: ks =>
    match build_round_trips
        (survivingPairs minr maxr flt (group_of recs k) (reverse_group_of recs k)) with
    | .error e => .error e
    | .ok l =>
      match cabin_groups_fold minr maxr flt recs ks with
      | .error e => .error e
      | .ok rest => .ok (if l.isEmpty then rest else (k, l) :: rest)

/-- The cabin loop of `process_bulk_availability_object_for_round_trips`
(filter.py lines 566-654), threading the `has_trips` flag exactly as the
source does: it is reset to `False` at the top of each cabin iteration that
reaches line 587 (that is, whose cabin DataFrame is non-empty) and set to
`True` only when that cabin contributes pairings. -/
def process_round_cabins (env : Env) (mv : Int) (minr maxr : Option Int)
    (flt : Option FilterCriteria) (nrecs : List NRecord) :
    List CABIN → Bool →
      Except PyErr
        (List (CABIN × List ((String × String) × List summary_round_trip)) × Bool)
  | [], ht => .ok ([], ht)
  | cabin :: rest, ht =>
    match proccessCabinDf env.cash mv cabin nrecs with
    | .error e => .error e
    | .ok cabin_df =>
      if cabin_df.isEmpty then
        process_round_cabins env mv minr maxr flt nrecs rest ht
      else
        match cabin_groups_fold minr maxr flt cabin_df (sortedKeys cabin_df) with
        | .error e => .error e
        | .ok rtbc =>
          if rtbc.isEmpty then
            process_round_cabins env mv minr maxr flt nrecs rest false
          else
            match process_round_cabins env mv minr maxr flt nrecs rest true with
            | .error e => .error e
            | .ok (acc, htf) => .ok ((cabin, rtbc) :: acc, htf)

/-- `Flight_Filter.process_bulk_availability_object_for_round_trips`
(filter.py lines 507-661).  `.ok none` is the Python `None` return; the
`has_trips` flag starts as the source's unbound state, modelled as `false`
(it is only consulted when some cabin assigned it). -/
def process_bulk_availability_object_for_round_trips (env : Env)
    (bulk : List RawRecord) (source : SOURCE) (minr maxr : Option Int)
    (include_cabins : List CABIN) (flt : Option FilterCriteria) :
    Except PyErr
      (Option (List (CABIN × List ((String × String) × List summary_round_trip)))) :=
  if bulk.isEmpty then .ok none
  else
    let nrecs := proccess_BulkAvailability env bulk
    if nrecs.isEmpty then .ok none
    else
      match get_mileage_value env.mileage_values source.value with
      | .error e => .error e
      | .ok mv =>
        match process_round_cabins env mv minr maxr flt nrecs include_cabins false with
        | .error e => .error e
        | .ok (assoc, ht) =>
          if assoc.isEmpty || !ht then .ok none else .ok (some assoc)

/-! ### Single-trip processing (filter.py lines 413-505) -/

/-- Association-list lookup (Python `dict` access). -/
def alookup [DecidableEq κ] (l : List (κ × β)) (k : κ) : Option β :=
  (l.find? (fun kv => kv.1 = k)).map (fun kv => kv.2)

/-- Association-list update in place (a Python `dict` update keeps the key's
original insertion position). -/
def updassoc [DecidableEq κ] (l : List (κ × β)) (k : κ) (v : β) : List (κ × β) :=
  if (l.find? (fun kv => kv.1 = k)).isSome then
    l.map (fun kv => if kv.1 = k then (k, v) else kv)
  else l ++ [(k, v)]

/-- The per-row loop of the single-trip processor (filter.py lines 481-501).
The per-city dictionary value is `none` for the `{}` placeholder the source
inserts at line 495 (a placeholder never survives a row iteration: it is
falsy, so line 497 does not `continue` and line 500 overwrites it).  In the
source the grouping key is read back from the constructed trip's
`origin_city`/`destination_city` attributes; those hold the row's values, so
the key is taken from the row here. -/
def single_rows_fold (flt : Option FilterCriteria) :
    List CRecord → List ((String × String) × Option summary_trip) →
      Except PyErr (List ((String × String) × Option summary_trip))
  | [], d => .ok d
  | row :: rows, d =>
    if !(filt_gate flt row none) then single_rows_fold flt rows d
    else
      match summary_trip.fromKwargs (trip_kwargs row) with
      | .error e => .error e
      | .ok trip =>
        let key := rec_key row
        match alookup d key with
        | none => single_rows_fold flt rows (d ++ [(key, some trip)])
        | some none => single_rows_fold flt rows (updassoc d key (some trip))
        | some (some t) =>
          if t.totalCost ≤ trip.totalCost then single_rows_fold flt rows d
          else single_rows_fold flt rows (updassoc d key (some trip))

/-- The cabin loop of the single-trip processor (filter.py lines 466-504):
for each cabin with a non-empty cabin DataFrame, fold its rows into the
cheapest-per-city dictionary and flatten to the list of its values. -/
def process_single_cabins (env : Env) (mv : Int) (flt : Option FilterCriteria)
    (nrecs : List NRecord) :
    List CABIN → Except PyErr (List (CABIN × List summary_trip))
  | [] => .ok []
  | cabin :: rest =>
    match proccessCabinDf env.cash mv cabin nrecs with
    | .error e => .error e
    | .ok cabin_df =>
      if cabin_df.isEmpty then process_single_cabins env mv flt nrecs rest
      else
        match single_rows_fold flt cabin_df [] with
        | .error e => .error e
        | .ok d =>
          match process_single_cabins env mv flt nrecs rest with
          | .error e => .error e
          | .ok acc => .ok ((cabin, d.filterMap (fun kv => kv.2)) :: acc)

/-- `Flight_Filter.process_bulk_availability_object_for_single_trips`
(filter.py lines 413-505).  Unlike the round-trip processor, its success path
returns the (possibly empty) per-cabin dictionary, never checking it for
emptiness. -/
def process_bulk_availability_object_for_single_trips (env : Env)
    (bulk : List RawRecord) (source : SOURCE) (include_cabins : List CABIN)
    (flt : Option FilterCriteria) :
    Except PyErr (Option (List (CABIN × List summary_trip))) :=
  if bulk.isEmpty then .ok none
  else
    let nrecs := proccess_BulkAvailability env bulk
    if nrecs.isEmpty then .ok none
    else
      match get_mileage_value env.mileage_values source.value with
      | .error e => .error e
      | .ok mv =>
        match process_single_cabins env mv flt nrecs include_cabins with
        | .error e => .error e
        | .ok assoc => .ok (some assoc)

/-! ### Scoring (`Flight_Filter.__score`, filter.py lines 663-692) -/

/-- Model of a Python float score: a finite value (exact rational in this
model; the float multiplication by `0.7` and the division are modelled as
exact rational arithmetic) or `float('inf')`. -/
inductive ScoreVal
  | inf
  | val (q : Rat)
  deriving DecidableEq, Repr

/-- Strict `<` on scores, as Python compares floats (no NaN arises here). -/
def ScoreVal.lt : ScoreVal → ScoreVal → Bool
  | .val a, .val b => a < b
  | .val _, .inf => true
  | .inf, _ => false

/-- The non-strict comparison induced by `<`, used by the stable sorts. -/
def ScoreVal.le (a b : ScoreVal) : Bool := !(ScoreVal.lt b a)

/-- Division of a score by a positive count (`average_score` at line 807);
`inf / n` is `inf` in Python float arithmetic. -/
def ScoreVal.divNat : ScoreVal → Nat → ScoreVal
  | .inf, _ => .inf
  | .val q, n => .val (q / n)

/-- The truthiness guard of filter.py line 686: a trip fails it when its
distance is `None` or `0`, or its total cost is `0` (a dataclass instance
itself is always truthy, so `not trip` never fires for the modelled lists). -/
def trip_invalid (t : summary_trip) : Bool :=
  (match t.distance with | none => true | some d => d == 0) || t.totalCost == 0

/-- The accumulation loop of `__score` (lines 685-690); the first invalid
trip raises `ValueError("Invalid trip data")`. -/
def score_fold : List summary_trip → Int → Rat → Except PyErr (Int × Rat)
  | [], c, d => .ok (c, d)
  | t :: ts, c, d =>
    if trip_invalid t then .error .valueError
    else score_fold ts (c + t.totalCost) (d + t.distance.getD 0)

/-- `Flight_Filter.__score`: cost per (distance × 0.7), or `inf` when the
summed distance is not positive; `ValueError` on an empty argument list or
an invalid trip. -/
def score (trips : List summary_trip) : Except PyErr ScoreVal :=
  if trips.isEmpty then .error .valueError
  else
    match score_fold trips 0 0 with
    | .error e => .error e
    | .ok (c, d) =>
      .ok (if 0 < d then .val ((c : Rat) / (d * (7 / 10))) else .inf)

/-! ### Top-N selector, single-trip mode (filter.py lines 695-734) -/

/-- Key computation of `sorted(trips, key=lambda x: self.__score(x))`:
CPython evaluates the key function on every element, in list order, before
sorting, so the first raising element aborts the sort. -/
def score_keys : List summary_trip → Except PyErr (List (summary_trip × ScoreVal))
  | [] => .ok []
  | t :: ts =>
    match score [t] with
    | .error e => .error e
    | .ok s =>
      match score_keys ts with
      | .error e => .error e
      | .ok rest => .ok ((t, s) :: rest)

/-- The cabin loop of `find_cheapest_for_single_trips` (lines 717-732). -/
def find_single_cabins (n : Nat) :
    List (CABIN × List summary_trip) → Except PyErr (List (CABIN × List summary_trip))
  | [] => .ok []
  | (cabin, trips) :: rest =>
    if trips.isEmpty then find_single_cabins n rest
    else
      match score_keys trips with
      | .error e => .error e
      | .ok keyed =>
        let cheapest :=
          ((sortLe (fun a b => ScoreVal.le a.2 b.2) keyed).map (fun p => p.1)).take n
        if cheapest.isEmpty then find_single_cabins n rest
        else
          match find_single_cabins n rest with
          | .error e => .error e
          | .ok acc => .ok ((cabin, cheapest) :: acc)

/-- `Flight_Filter.find_cheapest_for_single_trips` (filter.py lines 695-734):
`None` for a falsy input map, otherwise the per-cabin top-n map (possibly
empty).  A `ValueError` raised by the score key function propagates to the
caller — there is no exception handling in this method. -/
def find_cheapest_for_single_trips
    (trip_list_by_cabin : List (CABIN × List summary_trip)) (n : Nat) :
    Except PyErr (Option (List (CABIN × List summary_trip))) :=
  if trip_list_by_cabin.isEmpty then .ok none
  else
    match find_single_cabins n trip_list_by_cabin with
    | .error e => .error e
    | .ok acc => .ok (some acc)

/-! ### Top-N selector, round-trip mode (filter.py lines 737-823) -/

/-- One cabin's pairing dictionary. -/
abbrev RoundAssoc := List ((String × String) × List summary_round_trip)

/-- The cabin → pairing dictionary map. -/
abbrev RoundMap := List (CABIN × RoundAssoc)

/-- One element of the `flattened_cities` list: `(city_pairing,
round_trips_list, average_score)`. -/
abbrev Entry := (String × String) × List summary_round_trip × ScoreVal

/-- Combined cost of a round-trip candidate (outbound + return). -/
def combined_cost (rt : summary_round_trip) : Int :=
  rt.outbound.totalCost + rt.return_.totalCost

/-- Comparator of the in-place sort at filter.py line 780. -/
def rt_le (a b : summary_round_trip) : Bool := combined_cost a ≤ combined_cost b

/-- Stable ascending sort of a candidate list by combined cost. -/
def sort_rt (l : List summary_round_trip) : List summary_round_trip := sortLe rt_le l

/-- Post-state of one cabin's pairing dictionary after the in-place
`round_trips_list.sort(...)` at line 780 (every non-empty list of a
processed cabin is sorted in place; empty lists are skipped at line 775,
which coincides with sorting them). -/
def cabin_post (a : RoundAssoc) : RoundAssoc :=
  a.map (fun kv => (kv.1, sort_rt kv.2))

/-- The `sorted_cities` dictionary (lines 772-783): each non-empty candidate
list, sorted by combined cost and truncated to the 5 cheapest. -/
def sorted_cities_of (a : RoundAssoc) : RoundAssoc :=
  (a.filter (fun kv => !kv.2.isEmpty)).map (fun kv => (kv.1, (sort_rt kv.2).take 5))

/-- The quality band of lines 792-798: `first_trip_cost` is the combined cost
of the first (cheapest) candidate of the truncated list; a candidate is kept
when its combined cost divided by `first_trip_cost` is at most `1.1`.  The
float division of the source is modelled as exact rational arithmetic, and
dividing by an integer `0` is Python's `ZeroDivisionError`.  (The list here
is non-empty by construction of `sorted_cities_of`; the `[]` case stands for
the `IndexError` that `round_trips_list[0]` would raise.) -/
def band_filter (l : List summary_round_trip) : Except PyErr (List summary_round_trip) :=
  match l with
  | [] => .error .valueError
  | t0 :: _ =>
    let first := combined_cost t0
    if first = 0 then .error .zeroDivError
    else .ok (l.filter (fun t => decide ((combined_cost t : Rat) / (first : Rat) ≤ 11 / 10)))

/-- One iteration of the `flattened_cities` loop (lines 791-808): band-filter
the truncated list, skip the pairing if nothing survives, otherwise score all
surviving outbound legs followed by all surviving return legs and divide by
the number of survivors. -/
def pairing_entry (k : String × String) (l : List summary_round_trip) :
    Except PyErr (Option Entry) :=
  match band_filter l with
  | .error e => .error e
  | .ok filtered =>
    if filtered.isEmpty then .ok none
    else
      match score (filtered.map (fun t => t.outbound) ++ filtered.map (fun t => t.return_)) with
      | .error e => .error e
      | .ok s => .ok (some (k, filtered, ScoreVal.divNat s filtered.length))

/-- The fold building `flattened_cities` in dictionary order. -/
def flattened_fold : RoundAssoc → Except PyErr (List Entry)
  | [] => .ok []
  | kv :: rest =>
    match pairing_entry kv.1 kv.2 with
    | .error e => .error e
    | .ok oe =>
      match flattened_fold rest with
      | .error e => .error e
      | .ok acc => .ok (match oe with | none => acc | some ent => ent :: acc)

/-- Sort key of `flattened_cities.sort(key=lambda x: (x[2]))`. -/
def entry_le (a b : Entry) : Bool := ScoreVal.le a.2.2 b.2.2

/-- The pre-shuffle selection of one cabin (lines 768-811): `none` models the
`continue`s that skip the cabin (falsy input dictionary at line 768, or no
sorted cities at line 785); otherwise the score-sorted `flattened_cities`
truncated to the top `n`. -/
def cabin_selection (n : Nat) (a : RoundAssoc) : Except PyErr (Option (List Entry)) :=
  if a.isEmpty then .ok none
  else
    let sc := sorted_cities_of a
    if sc.isEmpty then .ok none
    else
      match flattened_fold sc with
      | .error e => .error e
      | .ok flattened => .ok (some ((sortLe entry_le flattened).take n))

/-- Lines 812-815: shuffle the selected entries and rebuild the dictionary.
The shuffle is the explicit parameter `σ`. -/
def fc_shuffled (σ : List Entry → List Entry) (sel : List Entry) : RoundAssoc :=
  (σ sel).map (fun ent => (ent.1, ent.2.1))

/-- The cabin loop of `find_cheapest_for_round_trips`, also producing the
post-state of the input map (its lists are sorted in place at line 780; a
raise aborts the loop, leaving later cabins untouched). -/
def fc_round_go (σ : List Entry → List Entry) (n : Nat) :
    RoundMap → Except PyErr RoundMap × RoundMap
  | [] => (.ok [], [])
  | (cabin, a) :: rest =>
    match cabin_selection n a with
    | .error e => (.error e, (cabin, cabin_post a) :: rest)
    | .ok none =>
      let pr := fc_round_go σ n rest
      (pr.1, (cabin, cabin_post a) :: pr.2)
    | .ok (some sel) =>
      let pr := fc_round_go σ n rest
      (match pr.1 with
       | .error e => .error e
       | .ok acc => .ok ((cabin, fc_shuffled σ sel) :: acc),
       (cabin, cabin_post a) :: pr.2)

/-- `Flight_Filter.find_cheapest_for_round_trips` (filter.py lines 737-823).
First component: the returned value (`.ok none` is the `None` return for a
falsy input map; `.ok (some [])` is the `{}` returned at line 821).  Second
component: the state of the caller's input map after the call. -/
def find_cheapest_for_round_trips (σ : List Entry → List Entry)
    (round_trip_list_by_cabin : RoundMap) (n : Nat) :
    Except PyErr (Option RoundMap) × RoundMap :=
  if round_trip_list_by_cabin.isEmpty then (.ok none, round_trip_list_by_cabin)
  else
    match fc_round_go σ n round_trip_list_by_cabin with
    | (.error e, post) => (.error e, post)
    | (.ok acc, post) => (.ok (some acc), post)

/-! ### Multi-source entry points (filter.py lines 53-214) -/

/-- The argument normalization `cabins if cabins else [cabin for cabin in
CABIN]` (`None` and the empty list are falsy). -/
def resolve_cabins : Option (List CABIN) → List CABIN
  | some l => if l.isEmpty then allCabins else l
  | none => allCabins

/-- The per-cabin union of single-trip results (filter.py lines 86-89). -/
def merge_single (acc m : List (CABIN × List summary_trip)) :
    List (CABIN × List summary_trip) :=
  m.foldl (fun acc kv =>
    match alookup acc kv.1 with
    | some cur => updassoc acc kv.1 (cur ++ kv.2)
    | none => acc ++ [(kv.1, kv.2)]) acc

/-- The source loop of `getTopNTripsFromMultipleSources` (lines 69-89). -/
def topn_source_fold (env : Env) (cabins : Option (List CABIN))
    (flt : Option FilterCriteria) :
    List (SOURCE × List RawRecord) → List (CABIN × List summary_trip) →
      Except PyErr (List (CABIN × List summary_trip))
  | [], acc => .ok acc
  | (source, bulk) :: rest, acc =>
    if bulk.isEmpty then topn_source_fold env cabins flt rest acc
    else
      match process_bulk_availability_object_for_single_trips env bulk source
          (resolve_cabins cabins) flt with
      | .error e => .error e
      | .ok none => topn_source_fold env cabins flt rest acc
      | .ok (some m) =>
        if m.isEmpty then topn_source_fold env cabins flt rest acc
        else topn_source_fold env cabins flt rest (merge_single acc m)

/-- `Flight_Filter.getTopNTripsFromMultipleSources` (filter.py lines 53-104):
returns `None` for an empty source map and when the merged map is empty or
holds only empty lists; otherwise hands the merged map to the single-trip
selector and returns its result. -/
def getTopNTripsFromMultipleSources (env : Env)
    (bulk_availability_by_source : List (SOURCE × List RawRecord))
    (cabins : Option (List CABIN)) (n : Nat) (flt : Option FilterCriteria) :
    Except PyErr (Option (List (CABIN × List summary_trip))) :=
  if bulk_availability_by_source.isEmpty then .ok none
  else
    match topn_source_fold env cabins flt bulk_availability_by_source [] with
    | .error e => .error e
    | .ok merged =>
      if merged.isEmpty || merged.all (fun kv => kv.2.isEmpty) then .ok none
      else find_cheapest_for_single_trips merged n

/-- The nested per-cabin, per-pairing union of round-trip results
(filter.py lines 184-192). -/
def merge_round (acc m : RoundMap) : RoundMap :=
  m.foldl (fun acc cabkv =>
    let upd := cabkv.2.foldl (fun inner kv =>
      match alookup inner kv.1 with
      | some l => updassoc inner kv.1 (l ++ kv.2)
      | none => inner ++ [(kv.1, kv.2)]) ((alookup acc cabkv.1).getD [])
    match alookup acc cabkv.1 with
    | some _ => updassoc acc cabkv.1 upd
    | none => acc ++ [(cabkv.1, upd)]) acc

/-- The source loop of `get_best_round_trips_from_multiple_sources`
(lines 164-192). -/
def round_source_fold (env : Env) (cabins : Option (List CABIN))
    (minr maxr : Option Int) (flt : Option FilterCriteria) :
    List (SOURCE × List RawRecord) → RoundMap → Except PyErr RoundMap
  | [], acc => .ok acc
  | (source, bulk) :: rest, acc =>
    if bulk.isEmpty then round_source_fold env cabins minr maxr flt rest acc
    else
      match process_bulk_availability_object_for_round_trips env bulk source
          minr maxr (resolve_cabins cabins) flt with
      | .error e => .error e
      | .ok none => round_source_fold env cabins minr maxr flt rest acc
      | .ok (some m) =>
        if m.isEmpty then round_source_fold env cabins minr maxr flt rest acc
        else round_source_fold env cabins minr maxr flt rest (merge_round acc m)

/-- `Flight_Filter.get_best_round_trips_from_multiple_sources` (filter.py
lines 106-214): raises `ValueError` on an empty source map; returns `None`
when the merged map is empty or holds only empty dictionaries; otherwise
runs the round-trip selector.  The post-selector check at line 206 re-tests
`trips_by_cabin` (whose shape the in-place sorts do not change, and which
already passed the first check), so only the truthiness of the selector's
result remains: `None` and `{}` become the `None` return. -/
def get_best_round_trips_from_multiple_sources (env : Env)
    (σ : List Entry → List Entry)
    (bulk_availability_by_source : List (SOURCE × List RawRecord))
    (cabins : Option (List CABIN)) (minr maxr : Option Int) (n : Nat)
    (flt : Option FilterCriteria) : Except PyErr (Option RoundMap) :=
  if bulk_availability_by_source.isEmpty then .error .valueError
  else
    match round_source_fold env cabins minr maxr flt bulk_availability_by_source [] with
    | .error e => .error e
    | .ok merged =>
      if merged.isEmpty || merged.all (fun kv => kv.2.isEmpty) then .ok none
      else
        match (find_cheapest_for_round_trips σ merged n).1 with
        | .error e => .error e
        | .ok none => .ok none
        | .ok (some []) => .ok none
        | .ok (some l) => .ok (some l)

/-! ### Concrete fixtures used by witnesses and counterexamples -/

/-- Metadata tables of the witness environment: airports `AAA`, `BBB` with
full metadata, `CCC` with city/country but no coordinates. -/
def cfgW : Config where
  IATA_CITY := fun a =>
    if a = "AAA" then some "Acity" else if a = "BBB" then some "Bcity"
    else if a = "CCC" then some "Ccity" else none
  IATA_COUNTRY := fun a =>
    if a = "AAA" then some "AC" else if a = "BBB" then some "BC"
    else if a = "CCC" then some "CC" else none
  IATA_LATITUDE := fun a =>
    if a = "AAA" then some 1 else if a = "BBB" then some 2 else none
  IATA_LONGITUDE := fun a =>
    if a = "AAA" then some 1 else if a = "BBB" then some 2 else none

/-- Witness environment: base currency USD, one cached rate, the `azul`
mileage value of the repository's test fixture, and a constant great-circle
function. -/
def envW : Env where
  cfg := cfgW
  greatCircle := fun _ _ => 100
  cash := { target_currency := "USD", cache := fun c => if c = "BRL" then some 500 else none }
  mileage_values := fun p => if p = "azul" then some 1400 else none

/-- An economy-cabin record from `AAA` to `BBB` on day 0. -/
def r1W : RawRecord where
  ID := "1"
  originAirport := "AAA"
  destinationAirport := "BBB"
  date := 0
  available := fun c => match c with | .Y => true | _ => false
  remainingSeats := fun c => match c with | .Y => 1 | _ => 0
  mileageCostRaw := fun _ => 10000
  totalTaxes := fun _ => 500
  taxesCurrency := "USD"

/-- The reverse-direction record, two days later. -/
def r2W : RawRecord :=
  { r1W with ID := "2", originAirport := "BBB", destinationAirport := "AAA", date := 2 }

/-- The normalized form of `r1W`. -/
def n1W : NRecord where
  toRawRecord := r1W
  origin_city := "Acity"
  destination_city := "Bcity"
  origin_country := "AC"
  destination_country := "BC"
  distance := some 100

/-- The normalized form of `r2W`. -/
def n2W : NRecord where
  toRawRecord := r2W
  origin_city := "Bcity"
  destination_city := "Acity"
  origin_country := "BC"
  destination_country := "AC"
  distance := some 100

/-- The economy cabin row of `n1W` (taxes already in USD, cost
`10000 * 1400 // 1000 + 500`). -/
def c1W : CRecord := { toNRecord := n1W, totalTaxesStd := 500, totalCost := 14500 }

/-- The economy cabin row of `n2W`. -/
def c2W : CRecord := { toNRecord := n2W, totalTaxesStd := 500, totalCost := 14500 }

/-! ### Helper lemmas about the embedded operations -/

theorem convertRows_mem (cash : CashHandler) (mv : Int) (cabin : CABIN) :
    ∀ (l : List NRecord) (out : List CRecord),
      convertRows cash mv cabin l = .ok out →
      ∀ c ∈ out,
        convert_to_system_base cash (c.totalTaxes cabin) c.taxesCurrency = .ok c.totalTaxesStd ∧
        c.totalCost = calc_cost (c.mileageCostRaw cabin) mv c.totalTaxesStd := by
  intro l
  induction l with
  | nil =>
    intro out hok c hc
    unfold convertRows at hok
    cases hok
    cases hc
  | cons r rs ih =>
    intro out hok c hc
    unfold convertRows at hok
    cases hcv : convert_to_system_base cash (r.totalTaxes cabin) r.taxesCurrency with
    | error e => rw [hcv] at hok; cases hok
    | ok t =>
      rw [hcv] at hok
      cases hrest : convertRows cash mv cabin rs with
      | error e => rw [hrest] at hok; cases hok
      | ok outr =>
        rw [hrest] at hok
        cases hok
        rcases List.mem_cons.mp hc with rfl | hc'
        · exact ⟨hcv, rfl⟩
        · exact ih outr hrest c hc'

theorem convert_ok_cases (cash : CashHandler) (amt : Int) (cur : String) (t : Int)
    (h : convert_to_system_base cash amt cur = .ok t) :
    (cash.target_currency = cur ∧ t = amt) ∨
    (cash.target_currency ≠ cur ∧
      ∃ rate, cash.cache cur = some rate ∧ t = Int.fdiv (amt * rate) 100) := by
  unfold convert_to_system_base at h
  by_cases hc : cash.target_currency = cur
  · left
    rw [if_pos hc] at h
    cases h
    exact ⟨hc, rfl⟩
  · right
    rw [if_neg hc] at h
    refine ⟨hc, ?_⟩
    cases hr : cash.cache cur with
    | none => rw [hr] at h; cases h
    | some rate =>
      rw [hr] at h
      cases h
      exact ⟨rate, rfl, rfl⟩

/-! ### C1 -/

/-- C1: every record retained for a cabin carries
`totalCost = floor(rawMileageCost * mileageValue / 1000) + convertedTaxes`,
where the converted taxes are the raw tax amount unchanged when the taxes
currency equals the base currency and `taxAmount * rate // 100` with the
cached scaled-by-100 integer rate otherwise — all in exact integer
floor-division arithmetic. -/
theorem C1_total_cost_formula (cash : CashHandler) (mv : Int) (cabin : CABIN)
    (recs : List NRecord) (out : List CRecord)
    (hok : proccessCabinDf cash mv cabin recs = .ok out) :
    ∀ c ∈ out,
      c.totalCost = Int.fdiv (c.mileageCostRaw cabin * mv) 1000 + c.totalTaxesStd ∧
      (cash.target_currency = c.taxesCurrency → c.totalTaxesStd = c.totalTaxes cabin) ∧
      (cash.target_currency ≠ c.taxesCurrency →
        ∃ rate, cash.cache c.taxesCurrency = some rate ∧
          c.totalTaxesStd = Int.fdiv (c.totalTaxes cabin * rate) 100) := by
  intro c hc
  have h := convertRows_mem cash mv cabin _ out hok c hc
  refine ⟨h.2, ?_, ?_⟩
  · intro heq
    rcases convert_ok_cases cash _ _ _ h.1 with ⟨_, ht⟩ | ⟨hne, _⟩
    · exact ht
    · exact absurd heq hne
  · intro hne
    rcases convert_ok_cases cash _ _ _ h.1 with ⟨heq, _⟩ | ⟨_, rate, hrate, ht⟩
    · exact absurd heq hne
    · exact ⟨rate, hrate, ht⟩

/-- Witness for C1 at a concrete retained record (`c1W`, USD taxes, mileage
value 1400): the cost formula and both currency cases hold there. -/
theorem C1_total_cost_formula_witness :
    c1W.totalCost = Int.fdiv (c1W.mileageCostRaw .Y * 1400) 1000 + c1W.totalTaxesStd ∧
    (envW.cash.target_currency = c1W.taxesCurrency →
      c1W.totalTaxesStd = c1W.totalTaxes .Y) ∧
    (envW.cash.target_currency ≠ c1W.taxesCurrency →
      ∃ rate, envW.cash.cache c1W.taxesCurrency = some rate ∧
        c1W.totalTaxesStd = Int.fdiv (c1W.totalTaxes .Y * rate) 100) :=
  C1_total_cost_formula envW.cash 1400 .Y [n1W] [c1W] (by rfl) c1W (by
    exact List.mem_singleton.mpr rfl)

/-! ### C3 -/

theorem pair_checks_date {minr maxr : Option Int} {flt : Option FilterCriteria}
    {o r : CRecord} (h : pair_checks minr maxr flt o r = true) : o.date < r.date := by
  unfold pair_checks at h
  by_cases hd : r.date ≤ o.date
  · rw [if_pos hd] at h
    cases h
  · exact not_le.mp hd

/-- C3: every outbound/return pair that reaches round-trip candidate
construction (i.e. survives the rejection checks of the pairing engine) has
its return date strictly later than its outbound date; a pair with return
date less than or equal to the outbound date is rejected by the first check,
so no same-day or reversed pairing ever reaches a candidate list. -/
theorem C3_return_strictly_after_outbound (minr maxr : Option Int)
    (flt : Option FilterCriteria) (group revgroup : List CRecord)
    (p : CRecord × CRecord) (hp : p ∈ survivingPairs minr maxr flt group revgroup) :
    p.1.date < p.2.date := by
  unfold survivingPairs at hp
  rcases List.mem_flatMap.mp hp with ⟨o, _, hmap⟩
  rcases List.mem_map.mp hmap with ⟨r, hr, rfl⟩
  exact pair_checks_date (List.of_mem_filter hr)

/-- Witness for C3: the concrete pair `(c1W, c2W)` (dates 0 and 2) survives
the checks, and the theorem yields the strict date ordering for it. -/
theorem C3_return_strictly_after_outbound_witness :
    (c1W, c2W) ∈ survivingPairs (some 2) (some 10) none [c1W] [c2W] ∧
    c1W.date < c2W.date :=
  ⟨List.mem_singleton.mpr rfl,
   C3_return_strictly_after_outbound (some 2) (some 10) none [c1W] [c2W] (c1W, c2W)
     (List.mem_singleton.mpr rfl)⟩

/-! ### C4 -/

theorem pair_checks_window_iff (o r : CRecord) :
    pair_checks (some 2) (some 10) none o r = true ↔
      2 ≤ r.date - o.date ∧ r.date - o.date ≤ 10 := by
  unfold pair_checks optTruthyInt filt_gate
  by_cases hd : r.date ≤ o.date
  · simp only [if_pos hd]
    constructor
    · intro h; cases h
    · intro h; omega
  · simp only [if_neg hd]
    simp only [show ((2 : Int) != 0) = true from rfl, show ((10 : Int) != 0) = true from rfl,
      Bool.and_self, if_true, Option.getD_some]
    by_cases hw : r.date - o.date < 2 ∨ r.date - o.date > 10
    · rw [if_pos (by simpa using hw)]
      constructor
      · intro h; cases h
      · intro h; omega
    · rw [if_neg (by simpa using hw)]
      constructor
      · intro _; omega
      · intro _; rfl

/-- C4: with `min_return_days = 2` and `max_return_days = 10` the pairing
engine rejects a pair exactly when its whole-day interval is below 2 or
above 10 (boundaries inclusive), and in particular the concrete 1-day and
11-day pairs are rejected while the 2-day and 10-day pairs survive to the
construction step; but at the concrete 2-day batch the processor raises
`TypeError` instead of returning the candidate, because the surviving pair
reaches the mismatched `summary_trip` keyword construction. -/
theorem C4_day_window_boundaries :
    (∀ o r : CRecord, pair_checks (some 2) (some 10) none o r = true ↔
      2 ≤ r.date - o.date ∧ r.date - o.date ≤ 10) ∧
    survivingPairs (some 2) (some 10) none [c1W] [c2W] = [(c1W, c2W)] ∧
    process_bulk_availability_object_for_round_trips envW [r1W, r2W] .AZUL
      (some 2) (some 10) allCabins none = .error .typeError :=
  ⟨pair_checks_window_iff, rfl, rfl⟩

/-! ### C2 — helper lemmas -/

theorem fromKwargs_trip_kwargs (row : CRecord) :
    summary_trip.fromKwargs (trip_kwargs row) = .error .typeError := rfl

theorem build_round_trip_err (o r : CRecord) :
    build_round_trip o r = .error .typeError := rfl

theorem build_round_trips_cons (p : CRecord × CRecord) (ps : List (CRecord × CRecord)) :
    build_round_trips (p :: ps) = .error .typeError := rfl

theorem build_round_trips_ok {ps : List (CRecord × CRecord)}
    {l : List summary_round_trip} (h : build_round_trips ps = .ok l) :
    ps = [] ∧ l = [] := by
  cases ps with
  | nil =>
    unfold build_round_trips at h
    cases h
    exact ⟨rfl, rfl⟩
  | cons p ps' => rw [build_round_trips_cons] at h; cases h

theorem cabin_groups_fold_ok_nil {minr maxr : Option Int} {flt : Option FilterCriteria}
    {recs : List CRecord} :
    ∀ {keys : List (String × String)} {rtbc : List ((String × String) × List summary_round_trip)},
      cabin_groups_fold minr maxr flt recs keys = .ok rtbc → rtbc = [] := by
  intro keys
  induction keys with
  | nil =>
    intro rtbc h
    unfold cabin_groups_fold at h
    cases h
    rfl
  | cons k ks ih =>
    intro rtbc h
    unfold cabin_groups_fold at h
    cases hb : build_round_trips
        (survivingPairs minr maxr flt (group_of recs k) (reverse_group_of recs k)) with
    | error e => rw [hb] at h; cases h
    | ok l =>
      rw [hb] at h
      rcases build_round_trips_ok hb with ⟨_, rfl⟩
      cases hrest : cabin_groups_fold minr maxr flt recs ks with
      | error e => rw [hrest] at h; cases h
      | ok rest =>
        rw [hrest] at h
        cases h
        exact ih hrest

theorem cabin_groups_fold_err_typeerror {minr maxr : Option Int}
    {flt : Option FilterCriteria} {recs : List CRecord} :
    ∀ {keys : List (String × String)} {e : PyErr},
      cabin_groups_fold minr maxr flt recs keys = .error e → e = .typeError := by
  intro keys
  induction keys with
  | nil =>
    intro e h
    unfold cabin_groups_fold at h
    cases h
  | cons k ks ih =>
    intro e h
    unfold cabin_groups_fold at h
    cases hb : build_round_trips
        (survivingPairs minr maxr flt (group_of recs k) (reverse_group_of recs k)) with
    | error e' =>
      rw [hb] at h
      cases ps : survivingPairs minr maxr flt (group_of recs k) (reverse_group_of recs k) with
      | nil => rw [ps] at hb; cases hb
      | cons p ps' =>
        rw [ps, build_round_trips_cons] at hb
        cases hb
        cases h
        rfl
    | ok l =>
      rw [hb] at h
      cases hrest : cabin_groups_fold minr maxr flt recs ks with
      | error e' =>
        rw [hrest] at h
        cases h
        exact ih hrest
      | ok rest => rw [hrest] at h; cases h

theorem build_round_trips_err_typeerror {ps : List (CRecord × CRecord)} {e : PyErr}
    (h : build_round_trips ps = .error e) : e = .typeError := by
  cases ps with
  | nil => unfold build_round_trips at h; cases h
  | cons p ps' =>
    rw [build_round_trips_cons] at h
    cases h
    rfl

theorem cabin_groups_fold_err {minr maxr : Option Int} {flt : Option FilterCriteria}
    {recs : List CRecord} :
    ∀ {keys : List (String × String)},
      (∃ k ∈ keys,
        survivingPairs minr maxr flt (group_of recs k) (reverse_group_of recs k) ≠ []) →
      cabin_groups_fold minr maxr flt recs keys = .error .typeError := by
  intro keys
  induction keys with
  | nil =>
    rintro ⟨k, hk, _⟩
    cases hk
  | cons k ks ih =>
    rintro ⟨k', hk', hsp⟩
    unfold cabin_groups_fold
    rcases List.mem_cons.mp hk' with rfl | hk'
    · cases ps : survivingPairs minr maxr flt (group_of recs k') (reverse_group_of recs k') with
      | nil => exact absurd ps hsp
      | cons p ps' => rw [build_round_trips_cons]
    · cases hb : build_round_trips
          (survivingPairs minr maxr flt (group_of recs k) (reverse_group_of recs k)) with
      | error e =>
        obtain rfl := build_round_trips_err_typeerror hb
        rfl
      | ok l =>
        rw [ih ⟨k', hk', hsp⟩]

theorem convertRows_ok_length {cash : CashHandler} {mv : Int} {cabin : CABIN} :
    ∀ {l : List NRecord} {out : List CRecord},
      convertRows cash mv cabin l = .ok out → out.length = l.length := by
  intro l
  induction l with
  | nil =>
    intro out h
    unfold convertRows at h
    cases h
    rfl
  | cons r rs ih =>
    intro out h
    unfold convertRows at h
    cases hcv : convert_to_system_base cash (r.totalTaxes cabin) r.taxesCurrency with
    | error e => rw [hcv] at h; cases h
    | ok t =>
      rw [hcv] at h
      cases hrest : convertRows cash mv cabin rs with
      | error e => rw [hrest] at h; cases h
      | ok outr =>
        rw [hrest] at h
        cases h
        simpa using ih hrest

theorem proccessCabinDf_ok_ne_nil {cash : CashHandler} {mv : Int} {cabin : CABIN}
    {recs : List NRecord} {out : List CRecord}
    (h : proccessCabinDf cash mv cabin recs = .ok out) (hne : out ≠ []) : recs ≠ [] := by
  intro hrecs
  subst hrecs
  unfold proccessCabinDf at h
  simp only [List.filter_nil] at h
  unfold convertRows at h
  cases h
  exact hne rfl

theorem process_round_cabins_ok_nil {env : Env} {mv : Int} {minr maxr : Option Int}
    {flt : Option FilterCriteria} {nrecs : List NRecord} :
    ∀ {cabins : List CABIN} {ht : Bool}
      {assoc : List (CABIN × List ((String × String) × List summary_round_trip))}
      {htf : Bool},
      process_round_cabins env mv minr maxr flt nrecs cabins ht = .ok (assoc, htf) →
      assoc = [] := by
  intro cabins
  induction cabins with
  | nil =>
    intro ht assoc htf h
    unfold process_round_cabins at h
    cases h
    rfl
  | cons c cs ih =>
    intro ht assoc htf h
    unfold process_round_cabins at h
    cases hdf : proccessCabinDf env.cash mv c nrecs with
    | error e => rw [hdf] at h; cases h
    | ok df =>
      simp only [hdf] at h
      by_cases hemp : df.isEmpty
      · rw [if_pos hemp] at h
        exact ih h
      · rw [if_neg hemp] at h
        cases hg : cabin_groups_fold minr maxr flt df (sortedKeys df) with
        | error e => simp only [hg] at h; cases h
        | ok rtbc =>
          simp only [hg] at h
          obtain rfl := cabin_groups_fold_ok_nil hg
          simp only [List.isEmpty_nil, if_true] at h
          exact ih h

theorem process_round_cabins_err {env : Env} {mv : Int} {minr maxr : Option Int}
    {flt : Option FilterCriteria} {nrecs : List NRecord} :
    ∀ {cabins : List CABIN} {ht : Bool},
      (∀ c ∈ cabins, ∃ out, proccessCabinDf env.cash mv c nrecs = .ok out) →
      (∃ c ∈ cabins, ∃ out, proccessCabinDf env.cash mv c nrecs = .ok out ∧
        ∃ k ∈ sortedKeys out,
          survivingPairs minr maxr flt (group_of out k) (reverse_group_of out k) ≠ []) →
      process_round_cabins env mv minr maxr flt nrecs cabins ht = .error .typeError := by
  intro cabins
  induction cabins with
  | nil =>
    rintro ht _ ⟨c, hc, _⟩
    cases hc
  | cons c cs ih =>
    rintro ht hall ⟨c', hc', out', hdf', k, hk, hsp⟩
    unfold process_round_cabins
    obtain ⟨out, hdf⟩ := hall c (List.mem_cons_self c cs)
    simp only [hdf]
    by_cases hemp : out.isEmpty
    · rw [if_pos hemp]
      rcases List.mem_cons.mp hc' with rfl | hc'
      · rw [hdf] at hdf'
        injection hdf' with h'
        subst h'
        obtain rfl := List.isEmpty_iff.mp hemp
        simp [sortedKeys, distinctKeys, sortLe] at hk
      · exact ih (fun x hx => hall x (List.mem_cons_of_mem c hx))
          ⟨c', hc', out', hdf', k, hk, hsp⟩
    · rw [if_neg hemp]
      cases hg : cabin_groups_fold minr maxr flt out (sortedKeys out) with
      | error e =>
        obtain rfl := cabin_groups_fold_err_typeerror hg
        rfl
      | ok rtbc =>
        obtain rfl := cabin_groups_fold_ok_nil hg
        rcases List.mem_cons.mp hc' with rfl | hc'
        · rw [hdf] at hdf'
          injection hdf' with h'
          subst h'
          have herr := @cabin_groups_fold_err minr maxr flt out (sortedKeys out) ⟨k, hk, hsp⟩
          rw [herr] at hg
          cases hg
        · exact ih (fun x hx => hall x (List.mem_cons_of_mem c hx))
            ⟨c', hc', out', hdf', k, hk, hsp⟩

theorem single_rows_fold_err {flt : Option FilterCriteria} :
    ∀ {rows : List CRecord} {d : List ((String × String) × Option summary_trip)},
      (∃ row ∈ rows, filt_gate flt row none = true) →
      single_rows_fold flt rows d = .error .typeError := by
  intro rows
  induction rows with
  | nil =>
    rintro d ⟨row, hr, _⟩
    cases hr
  | cons row rows' ih =>
    rintro d ⟨row', hr', hgate⟩
    unfold single_rows_fold
    cases hg : filt_gate flt row none with
    | true => rfl
    | false =>
      rcases List.mem_cons.mp hr' with rfl | hr'
      · rw [hgate] at hg; cases hg
      · exact ih ⟨row', hr', hgate⟩

theorem single_rows_fold_ok_eq {flt : Option FilterCriteria} :
    ∀ {rows : List CRecord} {d d' : List ((String × String) × Option summary_trip)},
      single_rows_fold flt rows d = .ok d' → d' = d := by
  intro rows
  induction rows with
  | nil =>
    intro d d' h
    unfold single_rows_fold at h
    cases h
    rfl
  | cons row rows' ih =>
    intro d d' h
    cases hg : filt_gate flt row none with
    | true =>
      have herr := @single_rows_fold_err flt (row :: rows') d
        ⟨row, List.mem_cons_self row rows', hg⟩
      rw [herr] at h
      cases h
    | false =>
      unfold single_rows_fold at h
      rw [hg] at h
      exact ih h

theorem single_rows_fold_err_typeerror {flt : Option FilterCriteria} :
    ∀ {rows : List CRecord} {d : List ((String × String) × Option summary_trip)}
      {e : PyErr},
      single_rows_fold flt rows d = .error e → e = .typeError := by
  intro rows
  induction rows with
  | nil =>
    intro d e h
    unfold single_rows_fold at h
    cases h
  | cons row rows' ih =>
    intro d e h
    unfold single_rows_fold at h
    cases hg : filt_gate flt row none with
    | true =>
      rw [hg] at h
      simp only [Bool.not_true, if_false, fromKwargs_trip_kwargs] at h
      cases h
      rfl
    | false =>
      rw [hg] at h
      exact ih h

theorem process_single_cabins_err {env : Env} {mv : Int} {flt : Option FilterCriteria}
    {nrecs : List NRecord} :
    ∀ {cabins : List CABIN},
      (∀ c ∈ cabins, ∃ out, proccessCabinDf env.cash mv c nrecs = .ok out) →
      (∃ c ∈ cabins, ∃ out, proccessCabinDf env.cash mv c nrecs = .ok out ∧
        ∃ row ∈ out, filt_gate flt row none = true) →
      process_single_cabins env mv flt nrecs cabins = .error .typeError := by
  intro cabins
  induction cabins with
  | nil =>
    rintro _ ⟨c, hc, _⟩
    cases hc
  | cons c cs ih =>
    rintro hall ⟨c', hc', out', hdf', row, hrow, hgate⟩
    unfold process_single_cabins
    obtain ⟨out, hdf⟩ := hall c (List.mem_cons_self c cs)
    simp only [hdf]
    by_cases hemp : out.isEmpty
    · rw [if_pos hemp]
      rcases List.mem_cons.mp hc' with rfl | hc'
      · rw [hdf] at hdf'
        injection hdf' with h'
        subst h'
        obtain rfl := List.isEmpty_iff.mp hemp
        cases hrow
      · exact ih (fun x hx => hall x (List.mem_cons_of_mem c hx))
          ⟨c', hc', out', hdf', row, hrow, hgate⟩
    · rw [if_neg hemp]
      cases hf : single_rows_fold flt out [] with
      | error e =>
        obtain rfl := single_rows_fold_err_typeerror hf
        rfl
      | ok d =>
        rcases List.mem_cons.mp hc' with rfl | hc'
        · rw [hdf] at hdf'
          injection hdf' with h'
          subst h'
          rw [single_rows_fold_err ⟨row, hrow, hgate⟩] at hf
          cases hf
        · rw [ih (fun x hx => hall x (List.mem_cons_of_mem c hx))
            ⟨c', hc', out', hdf', row, hrow, hgate⟩]

theorem get_mileage_value_some {mileage_values : String → Option Int} {p : String}
    {mv : Int} (h : mileage_values p = some mv) :
    get_mileage_value mileage_values p = .ok mv := by
  unfold get_mileage_value
  rw [h]

theorem proccess_BulkAvailability_ne_nil {env : Env} {bulk : List RawRecord}
    (h : proccess_BulkAvailability env bulk ≠ []) : bulk ≠ [] := by
  intro hb
  subst hb
  exact h rfl

theorem process_round_typeerror (env : Env) (bulk : List RawRecord) (source : SOURCE)
    (minr maxr : Option Int) (include_cabins : List CABIN)
    (flt : Option FilterCriteria) (mv : Int)
    (hmv : env.mileage_values source.value = some mv)
    (hall : ∀ c ∈ include_cabins,
      ∃ out, proccessCabinDf env.cash mv c (proccess_BulkAvailability env bulk) = .ok out)
    (hsurv : ∃ c ∈ include_cabins, ∃ out,
      proccessCabinDf env.cash mv c (proccess_BulkAvailability env bulk) = .ok out ∧
      ∃ k ∈ sortedKeys out,
        survivingPairs minr maxr flt (group_of out k) (reverse_group_of out k) ≠ []) :
    process_bulk_availability_object_for_round_trips env bulk source minr maxr
      include_cabins flt = .error .typeError := by
  obtain ⟨c, hc, out, hdf, k, hk, hsp⟩ := hsurv
  have hout_ne : out ≠ [] := by
    intro h
    subst h
    simp [sortedKeys, distinctKeys, sortLe] at hk
  have hnrecs : proccess_BulkAvailability env bulk ≠ [] :=
    proccessCabinDf_ok_ne_nil hdf hout_ne
  have hbulk : bulk ≠ [] := proccess_BulkAvailability_ne_nil hnrecs
  unfold process_bulk_availability_object_for_round_trips
  rw [if_neg (by simpa [List.isEmpty_iff] using hbulk)]
  rw [if_neg (by simpa [List.isEmpty_iff] using hnrecs)]
  simp only [get_mileage_value_some hmv]
  rw [process_round_cabins_err hall ⟨c, hc, out, hdf, k, hk, hsp⟩]

theorem process_single_typeerror (env : Env) (bulk : List RawRecord) (source : SOURCE)
    (include_cabins : List CABIN) (flt : Option FilterCriteria) (mv : Int)
    (hmv : env.mileage_values source.value = some mv)
    (hall : ∀ c ∈ include_cabins,
      ∃ out, proccessCabinDf env.cash mv c (proccess_BulkAvailability env bulk) = .ok out)
    (hsurv : ∃ c ∈ include_cabins, ∃ out,
      proccessCabinDf env.cash mv c (proccess_BulkAvailability env bulk) = .ok out ∧
      ∃ row ∈ out, filt_gate flt row none = true) :
    process_bulk_availability_object_for_single_trips env bulk source include_cabins flt =
      .error .typeError := by
  obtain ⟨c, hc, out, hdf, row, hrow, hgate⟩ := hsurv
  have hout_ne : out ≠ [] := by
    intro h
    subst h
    cases hrow
  have hnrecs : proccess_BulkAvailability env bulk ≠ [] :=
    proccessCabinDf_ok_ne_nil hdf hout_ne
  have hbulk : bulk ≠ [] := proccess_BulkAvailability_ne_nil hnrecs
  unfold process_bulk_availability_object_for_single_trips
  rw [if_neg (by simpa [List.isEmpty_iff] using hbulk)]
  rw [if_neg (by simpa [List.isEmpty_iff] using hnrecs)]
  simp only [get_mileage_value_some hmv]
  rw [process_single_cabins_err hall ⟨c, hc, out, hdf, row, hrow, hgate⟩]

theorem process_round_never_some (env : Env) (bulk : List RawRecord) (source : SOURCE)
    (minr maxr : Option Int) (include_cabins : List CABIN)
    (flt : Option FilterCriteria)
    (m : List (CABIN × List ((String × String) × List summary_round_trip))) :
    process_bulk_availability_object_for_round_trips env bulk source minr maxr
      include_cabins flt ≠ .ok (some m) := by
  intro h
  unfold process_bulk_availability_object_for_round_trips at h
  by_cases hb : bulk.isEmpty
  · rw [if_pos hb] at h
    cases h
  · rw [if_neg hb] at h
    by_cases hn : (proccess_BulkAvailability env bulk).isEmpty
    · rw [if_pos hn] at h
      cases h
    · rw [if_neg hn] at h
      cases hgm : get_mileage_value env.mileage_values source.value with
      | error e => rw [hgm] at h; cases h
      | ok mv =>
        simp only [hgm] at h
        cases hpc : process_round_cabins env mv minr maxr flt
            (proccess_BulkAvailability env bulk) include_cabins false with
        | error e => simp only [hpc] at h; cases h
        | ok p =>
          obtain ⟨assoc, ht⟩ := p
          obtain rfl := process_round_cabins_ok_nil hpc
          simp only [hpc] at h
          simp at h

theorem process_single_cabins_values_nil {env : Env} {mv : Int}
    {flt : Option FilterCriteria} {nrecs : List NRecord} :
    ∀ {cabins : List CABIN} {assoc : List (CABIN × List summary_trip)},
      process_single_cabins env mv flt nrecs cabins = .ok assoc →
      ∀ kv ∈ assoc, kv.2 = [] := by
  intro cabins
  induction cabins with
  | nil =>
    intro assoc h kv hkv
    unfold process_single_cabins at h
    cases h
    cases hkv
  | cons c cs ih =>
    intro assoc h kv hkv
    unfold process_single_cabins at h
    cases hdf : proccessCabinDf env.cash mv c nrecs with
    | error e => rw [hdf] at h; cases h
    | ok df =>
      simp only [hdf] at h
      by_cases hemp : df.isEmpty
      · rw [if_pos hemp] at h
        exact ih h kv hkv
      · rw [if_neg hemp] at h
        cases hf : single_rows_fold flt df [] with
        | error e => simp only [hf] at h; cases h
        | ok d =>
          simp only [hf] at h
          obtain rfl := single_rows_fold_ok_eq hf
          cases hrest : process_single_cabins env mv flt nrecs cs with
          | error e => simp only [hrest] at h; cases h
          | ok acc =>
            simp only [hrest] at h
            cases h
            rcases List.mem_cons.mp hkv with rfl | hkv'
            · rfl
            · exact ih hrest kv hkv'

theorem process_single_some_empty (env : Env) (bulk : List RawRecord) (source : SOURCE)
    (include_cabins : List CABIN) (flt : Option FilterCriteria)
    (m : List (CABIN × List summary_trip))
    (h : process_bulk_availability_object_for_single_trips env bulk source
      include_cabins flt = .ok (some m)) :
    ∀ kv ∈ m, kv.2 = [] := by
  unfold process_bulk_availability_object_for_single_trips at h
  by_cases hb : bulk.isEmpty
  · rw [if_pos hb] at h
    cases h
  · rw [if_neg hb] at h
    by_cases hn : (proccess_BulkAvailability env bulk).isEmpty
    · rw [if_pos hn] at h
      cases h
    · rw [if_neg hn] at h
      cases hgm : get_mileage_value env.mileage_values source.value with
      | error e => rw [hgm] at h; cases h
      | ok mv =>
        simp only [hgm] at h
        cases hpc : process_single_cabins env mv flt
            (proccess_BulkAvailability env bulk) include_cabins with
        | error e => simp only [hpc] at h; cases h
        | ok assoc =>
          simp only [hpc] at h
          cases h
          exact process_single_cabins_values_nil hpc

/-! ### C2 — claim theorems -/

/-- C2 counterexample: the batch `[r1W]` has a record that survives
normalization, cabin partitioning (first conjunct: its cabin row is
retained) and the absent filter predicate, yet
`process_bulk_availability_object_for_round_trips` returns `None` rather
than raising a `TypeError`, because the record has no date-valid pairing
partner and construction is never reached. -/
theorem C2_counterexample :
    proccessCabinDf envW.cash 1400 .Y (proccess_BulkAvailability envW [r1W]) =
      .ok [c1W] ∧
    process_bulk_availability_object_for_round_trips envW [r1W] .AZUL none none
      [.Y] none = .ok none :=
  ⟨rfl, rfl⟩

/-- C2 (amended): provided the mileage value resolves and every cabin's tax
conversions succeed, the single-trip processor raises `TypeError` whenever
some record survives normalization, cabin partitioning and the optional
filter predicate; the round-trip processor raises `TypeError` whenever
additionally at least one outbound/return pair survives the date, window and
filter checks; consequently the round-trip processor never returns a
non-`None` map at all, and any map the single-trip processor returns holds
only empty trip lists. -/
theorem C2_summary_construction_typeerror :
    (∀ (env : Env) (bulk : List RawRecord) (source : SOURCE)
       (include_cabins : List CABIN) (flt : Option FilterCriteria) (mv : Int),
       env.mileage_values source.value = some mv →
       (∀ c ∈ include_cabins,
         ∃ out, proccessCabinDf env.cash mv c (proccess_BulkAvailability env bulk) = .ok out) →
       (∃ c ∈ include_cabins, ∃ out,
         proccessCabinDf env.cash mv c (proccess_BulkAvailability env bulk) = .ok out ∧
         ∃ row ∈ out, filt_gate flt row none = true) →
       process_bulk_availability_object_for_single_trips env bulk source
         include_cabins flt = .error .typeError) ∧
    (∀ (env : Env) (bulk : List RawRecord) (source : SOURCE) (minr maxr : Option Int)
       (include_cabins : List CABIN) (flt : Option FilterCriteria) (mv : Int),
       env.mileage_values source.value = some mv →
       (∀ c ∈ include_cabins,
         ∃ out, proccessCabinDf env.cash mv c (proccess_BulkAvailability env bulk) = .ok out) →
       (∃ c ∈ include_cabins, ∃ out,
         proccessCabinDf env.cash mv c (proccess_BulkAvailability env bulk) = .ok out ∧
         ∃ k ∈ sortedKeys out,
           survivingPairs minr maxr flt (group_of out k) (reverse_group_of out k) ≠ []) →
       process_bulk_availability_object_for_round_trips env bulk source minr maxr
         include_cabins flt = .error .typeError) ∧
    (∀ (env : Env) (bulk : List RawRecord) (source : SOURCE) (minr maxr : Option Int)
       (include_cabins : List CABIN) (flt : Option FilterCriteria)
       (m : List (CABIN × List ((String × String) × List summary_round_trip))),
       process_bulk_availability_object_for_round_trips env bulk source minr maxr
         include_cabins flt ≠ .ok (some m)) ∧
    (∀ (env : Env) (bulk : List RawRecord) (source : SOURCE)
       (include_cabins : List CABIN) (flt : Option FilterCriteria)
       (m : List (CABIN × List summary_trip)),
       process_bulk_availability_object_for_single_trips env bulk source
         include_cabins flt = .ok (some m) → ∀ kv ∈ m, kv.2 = []) :=
  ⟨process_single_typeerror, process_round_typeerror, process_round_never_some,
   process_single_some_empty⟩

/-- Witness for the amended C2 at concrete batches: the single-trip processor
raises on the one-record batch, and the round-trip processor raises on the
two-record batch with a valid pairing. -/
theorem C2_summary_construction_typeerror_witness :
    process_bulk_availability_object_for_single_trips envW [r1W] .AZUL [.Y] none =
      .error .typeError ∧
    process_bulk_availability_object_for_round_trips envW [r1W, r2W] .AZUL none none
      [.Y] none = .error .typeError :=
  ⟨C2_summary_construction_typeerror.1 envW [r1W] .AZUL [.Y] none 1400 rfl
    (by
      intro c hc
      obtain rfl := List.mem_singleton.mp hc
      exact ⟨[c1W], rfl⟩)
    ⟨.Y, List.mem_singleton.mpr rfl, [c1W], rfl, c1W, List.mem_singleton.mpr rfl, rfl⟩,
   C2_summary_construction_typeerror.2.1 envW [r1W, r2W] .AZUL none none [.Y] none 1400 rfl
    (by
      intro c hc
      obtain rfl := List.mem_singleton.mp hc
      exact ⟨[c1W, c2W], rfl⟩)
    ⟨.Y, List.mem_singleton.mpr rfl, [c1W, c2W], rfl, ("Acity", "Bcity"),
      by decide, List.cons_ne_nil _ _⟩⟩

/-! ### C6 — scoring lemmas -/

/-- Sum of the trips' total costs (the `total_cost` accumulator). -/
def cost_sum (trips : List summary_trip) : Int :=
  (trips.map (fun t => t.totalCost)).sum

/-- Sum of the trips' distances (the `total_distance` accumulator; a `None`
distance never reaches the sum because the guard raises first). -/
def dist_sum (trips : List summary_trip) : Rat :=
  (trips.map (fun t => t.distance.getD 0)).sum

theorem score_fold_ok :
    ∀ (trips : List summary_trip), (∀ t ∈ trips, trip_invalid t = false) →
      ∀ (c : Int) (d : Rat),
        score_fold trips c d = .ok (c + cost_sum trips, d + dist_sum trips)
  | [], _, c, d => by simp [score_fold, cost_sum, dist_sum]
  | t :: ts, hv, c, d => by
    unfold score_fold
    rw [hv t (List.mem_cons_self t ts)]
    rw [score_fold_ok ts (fun x hx => hv x (List.mem_cons_of_mem t hx))]
    simp [cost_sum, dist_sum, add_assoc]

theorem score_fold_err :
    ∀ (trips : List summary_trip), (∃ t ∈ trips, trip_invalid t = true) →
      ∀ (c : Int) (d : Rat), score_fold trips c d = .error .valueError
  | [], h, _, _ => by
    obtain ⟨t, ht, _⟩ := h
    cases ht
  | t :: ts, h, c, d => by
    obtain ⟨t', ht', hinv⟩ := h
    unfold score_fold
    cases hg : trip_invalid t with
    | true => rfl
    | false =>
      rcases List.mem_cons.mp ht' with rfl | ht'
      · rw [hinv] at hg; cases hg
      · exact score_fold_err ts ⟨t', ht', hinv⟩ _ _

theorem score_fold_err_valueerror :
    ∀ {trips : List summary_trip} {c : Int} {d : Rat} {e : PyErr},
      score_fold trips c d = .error e → e = .valueError := by
  intro trips
  induction trips with
  | nil =>
    intro c d e h
    unfold score_fold at h
    cases h
  | cons t ts ih =>
    intro c d e h
    unfold score_fold at h
    cases hg : trip_invalid t with
    | true =>
      rw [hg] at h
      simp only [if_true] at h
      cases h
      rfl
    | false =>
      rw [hg] at h
      exact ih h

theorem score_err_valueerror {trips : List summary_trip} {e : PyErr}
    (h : score trips = .error e) : e = .valueError := by
  unfold score at h
  by_cases hne : trips.isEmpty
  · rw [if_pos hne] at h
    cases h
    rfl
  · rw [if_neg hne] at h
    cases hf : score_fold trips 0 0 with
    | error e' =>
      rw [hf] at h
      cases h
      exact score_fold_err_valueerror hf
    | ok p => simp only [hf] at h; cases h

theorem score_inf (trips : List summary_trip) (hne : trips ≠ [])
    (hvalid : ∀ t ∈ trips, trip_invalid t = false) (hd : dist_sum trips ≤ 0) :
    score trips = .ok .inf := by
  unfold score
  rw [if_neg (by simpa [List.isEmpty_iff] using hne)]
  rw [score_fold_ok trips hvalid 0 0]
  simp only [zero_add]
  rw [if_neg (not_lt.mpr hd)]

/-! ### C6 — claim theorems -/

/-- C6 counterexample: the one-trip collection with cost 5 and distance 0
has summed distance 0, yet the scoring function raises `ValueError`
("Invalid trip data") instead of returning positive infinity, because the
guard treats a zero distance the same as a missing one. -/
theorem C6_counterexample :
    dist_sum [⟨"i", "c", 5, some 0⟩] = 0 ∧
    score [⟨"i", "c", 5, some 0⟩] = .error .valueError :=
  ⟨by simp [dist_sum], rfl⟩

/-- C6 (amended): for a non-empty collection the scoring function raises
`ValueError` exactly when some trip has a falsy (missing or zero) cost or a
falsy (missing or zero) distance; when no trip trips that guard, a
non-positive summed distance yields positive infinity rather than an error. -/
theorem C6_zero_distance_amended (trips : List summary_trip) (hne : trips ≠ []) :
    (score trips = .error .valueError ↔ ∃ t ∈ trips, trip_invalid t = true) ∧
    ((∀ t ∈ trips, trip_invalid t = false) → dist_sum trips ≤ 0 →
      score trips = .ok .inf) := by
  constructor
  · constructor
    · intro h
      by_contra hex
      push_neg at hex
      have hvalid : ∀ t ∈ trips, trip_invalid t = false := by
        intro t ht
        cases hg : trip_invalid t with
        | true => exact absurd hg (hex t ht)
        | false => rfl
      unfold score at h
      rw [if_neg (by simpa [List.isEmpty_iff] using hne)] at h
      rw [score_fold_ok trips hvalid 0 0] at h
      simp only at h
      cases h
    · intro hex
      unfold score
      rw [if_neg (by simpa [List.isEmpty_iff] using hne)]
      rw [score_fold_err trips hex 0 0]
  · exact score_inf trips hne

/-- Witness for the amended C6: a concrete valid two-trip collection whose
distances sum to zero scores positive infinity. -/
theorem C6_zero_distance_amended_witness :
    score [⟨"a", "c", 5, some (-3)⟩, ⟨"b", "c", 5, some 3⟩] = .ok .inf :=
  (C6_zero_distance_amended [⟨"a", "c", 5, some (-3)⟩, ⟨"b", "c", 5, some 3⟩]
    (by simp)).2 (by decide) (by norm_num [dist_sum])

/-! ### C7 — lemmas about invalid trips reaching the selector -/

theorem score_single_ok_valid {t : summary_trip} {s : ScoreVal}
    (h : score [t] = .ok s) : trip_invalid t = false := by
  cases hg : trip_invalid t with
  | true =>
    have herr : score [t] = .error .valueError := by
      unfold score
      rw [if_neg (by simp)]
      rw [score_fold_err [t] ⟨t, List.mem_singleton.mpr rfl, hg⟩ 0 0]
    rw [herr] at h
    cases h
  | false => rfl

theorem score_keys_ok_valid :
    ∀ {trips : List summary_trip} {keyed : List (summary_trip × ScoreVal)},
      score_keys trips = .ok keyed → ∀ t ∈ trips, trip_invalid t = false := by
  intro trips
  induction trips with
  | nil =>
    intro keyed h t ht
    cases ht
  | cons t ts ih =>
    intro keyed h t' ht'
    unfold score_keys at h
    cases hs : score [t] with
    | error e => rw [hs] at h; cases h
    | ok s =>
      simp only [hs] at h
      cases hrest : score_keys ts with
      | error e => simp only [hrest] at h; cases h
      | ok rest =>
        rcases List.mem_cons.mp ht' with rfl | ht'
        · exact score_single_ok_valid hs
        · exact ih hrest t' ht'

theorem score_keys_err_valueerror :
    ∀ {trips : List summary_trip} {e : PyErr},
      score_keys trips = .error e → e = .valueError := by
  intro trips
  induction trips with
  | nil =>
    intro e h
    unfold score_keys at h
    cases h
  | cons t ts ih =>
    intro e h
    unfold score_keys at h
    cases hs : score [t] with
    | error e' =>
      rw [hs] at h
      cases h
      exact score_err_valueerror hs
    | ok s =>
      simp only [hs] at h
      cases hrest : score_keys ts with
      | error e' =>
        simp only [hrest] at h
        cases h
        exact ih hrest
      | ok rest => simp only [hrest] at h; cases h

theorem score_keys_err :
    ∀ (trips : List summary_trip), (∃ t ∈ trips, trip_invalid t = true) →
      score_keys trips = .error .valueError
  | [], h => by
    obtain ⟨t, ht, _⟩ := h
    cases ht
  | t :: ts, h => by
    obtain ⟨t', ht', hinv⟩ := h
    unfold score_keys
    cases hs : score [t] with
    | error e =>
      obtain rfl := score_err_valueerror hs
      rfl
    | ok s =>
      rcases List.mem_cons.mp ht' with rfl | ht'
      · rw [score_single_ok_valid hs] at hinv
        cases hinv
      · rw [score_keys_err ts ⟨t', ht', hinv⟩]

theorem find_single_cabins_err :
    ∀ {m : List (CABIN × List summary_trip)} (n : Nat),
      (∃ kv ∈ m, ∃ t ∈ kv.2, trip_invalid t = true) →
      find_single_cabins n m = .error .valueError := by
  intro m
  induction m with
  | nil =>
    rintro n ⟨kv, hkv, _⟩
    cases hkv
  | cons ct rest ih =>
    rintro n ⟨kv, hkv, t, ht, hinv⟩
    obtain ⟨cabin, trips⟩ := ct
    unfold find_single_cabins
    by_cases hemp : trips.isEmpty
    · rw [if_pos hemp]
      rcases List.mem_cons.mp hkv with rfl | hkv'
      · obtain rfl := List.isEmpty_iff.mp hemp
        cases ht
      · exact ih n ⟨kv, hkv', t, ht, hinv⟩
    · rw [if_neg hemp]
      cases hs : score_keys trips with
      | error e =>
        obtain rfl := score_keys_err_valueerror hs
        rfl
      | ok keyed =>
        rcases List.mem_cons.mp hkv with rfl | hkv'
        · rw [score_keys_err trips ⟨t, ht, hinv⟩] at hs
          cases hs
        · dsimp only
          by_cases hch :
            (((sortLe (fun a b => ScoreVal.le a.2 b.2) keyed).map (fun p => p.1)).take n).isEmpty
          · rw [if_pos hch]
            exact ih n ⟨kv, hkv', t, ht, hinv⟩
          · rw [if_neg hch]
            rw [ih n ⟨kv, hkv', t, ht, hinv⟩]

/-! ### C7 — claim theorems -/

/-- A record routed through airport `CCC`, which has city and country
metadata but no coordinates. -/
def rCCW : RawRecord :=
  { r1W with ID := "9", originAirport := "CCC", destinationAirport := "AAA" }

/-- The normalized form of `rCCW`: retained, with an undefined distance. -/
def nCCW : NRecord where
  toRawRecord := rCCW
  origin_city := "Ccity"
  destination_city := "Acity"
  origin_country := "CC"
  destination_country := "AC"
  distance := none

/-- C7 counterexample: a record whose origin airport has no coordinates is
retained by normalization with `None` distance (it is not dropped), and when
a summary trip with `None` distance reaches the single-trip selector, the
selection pass raises `ValueError` out of `find_cheapest_for_single_trips`
instead of silently dropping the record. -/
theorem C7_counterexample :
    proccess_BulkAvailability envW [rCCW] = [nCCW] ∧
    nCCW.distance = none ∧
    find_cheapest_for_single_trips [(.Y, [⟨"9", "Ccity", 5, none⟩])] 1 =
      .error .valueError :=
  ⟨rfl, rfl, rfl⟩

/-- C7 (amended): a record whose airports resolve to city and country but
whose coordinate lookups are not all truthy is kept by the normalizer with
`None` distance; and when any processed cabin's trip list contains a trip
with a falsy distance (or cost), the single-trip selector raises
`ValueError` out of the selection pass — the undefined distance surfaces as
an error, not as a silent drop. -/
theorem C7_missing_coords_amended :
    (∀ (env : Env) (r : RawRecord) (oc dc oco dco : String),
      env.cfg.IATA_CITY r.originAirport = some oc →
      env.cfg.IATA_CITY r.destinationAirport = some dc →
      env.cfg.IATA_COUNTRY r.originAirport = some oco →
      env.cfg.IATA_COUNTRY r.destinationAirport = some dco →
      (coordTruthy (env.cfg.IATA_LATITUDE r.originAirport) &&
       coordTruthy (env.cfg.IATA_LONGITUDE r.originAirport) &&
       coordTruthy (env.cfg.IATA_LATITUDE r.destinationAirport) &&
       coordTruthy (env.cfg.IATA_LONGITUDE r.destinationAirport)) = false →
      ∃ n, normalize_record env r = some n ∧ n.distance = none) ∧
    (∀ (m : List (CABIN × List summary_trip)) (n : Nat),
      (∃ kv ∈ m, ∃ t ∈ kv.2, trip_invalid t = true) →
      find_cheapest_for_single_trips m n = .error .valueError) := by
  constructor
  · intro env r oc dc oco dco h1 h2 h3 h4 hcoord
    refine ⟨{ toRawRecord := r, origin_city := oc, destination_city := dc,
              origin_country := oco, destination_country := dco, distance := none },
      ?_, rfl⟩
    unfold normalize_record
    simp only [h1, h2, h3, h4, hcoord, Bool.false_eq_true, if_false]
  · intro m n hex
    have hm : m ≠ [] := by
      obtain ⟨kv, hkv, _⟩ := hex
      intro h
      subst h
      cases hkv
    unfold find_cheapest_for_single_trips
    rw [if_neg (by simpa [List.isEmpty_iff] using hm)]
    rw [find_single_cabins_err n hex]

/-- Witness for the amended C7 at the concrete record `rCCW` and a concrete
map holding a `None`-distance trip. -/
theorem C7_missing_coords_amended_witness :
    (∃ n, normalize_record envW rCCW = some n ∧ n.distance = none) ∧
    find_cheapest_for_single_trips [(.Y, [⟨"9", "Ccity", 5, none⟩])] 2 =
      .error .valueError :=
  ⟨C7_missing_coords_amended.1 envW rCCW "Ccity" "Acity" "CC" "AC" rfl rfl rfl rfl rfl,
   C7_missing_coords_amended.2 [(.Y, [⟨"9", "Ccity", 5, none⟩])] 2
     ⟨(.Y, [⟨"9", "Ccity", 5, none⟩]), List.mem_singleton.mpr rfl,
      ⟨"9", "Ccity", 5, none⟩, List.mem_singleton.mpr rfl, rfl⟩⟩

/-! ### C8 — entry-point behavior on empty data -/

theorem round_source_fold_all_empty {env : Env} {cabins : Option (List CABIN)}
    {minr maxr : Option Int} {flt : Option FilterCriteria} :
    ∀ {srcs : List (SOURCE × List RawRecord)} {acc : RoundMap},
      (∀ s ∈ srcs, s.2 = []) →
      round_source_fold env cabins minr maxr flt srcs acc = .ok acc := by
  intro srcs
  induction srcs with
  | nil =>
    intro acc _
    rfl
  | cons sb rest ih =>
    intro acc hall
    obtain ⟨source, bulk⟩ := sb
    obtain rfl : bulk = [] := hall (source, bulk) (List.mem_cons_self _ _)
    unfold round_source_fold
    exact ih (fun s hs => hall s (List.mem_cons_of_mem _ hs))

theorem topn_source_fold_all_empty {env : Env} {cabins : Option (List CABIN)}
    {flt : Option FilterCriteria} :
    ∀ {srcs : List (SOURCE × List RawRecord)} {acc : List (CABIN × List summary_trip)},
      (∀ s ∈ srcs, s.2 = []) →
      topn_source_fold env cabins flt srcs acc = .ok acc := by
  intro srcs
  induction srcs with
  | nil =>
    intro acc _
    rfl
  | cons sb rest ih =>
    intro acc hall
    obtain ⟨source, bulk⟩ := sb
    obtain rfl : bulk = [] := hall (source, bulk) (List.mem_cons_self _ _)
    unfold topn_source_fold
    exact ih (fun s hs => hall s (List.mem_cons_of_mem _ hs))

/-- C8 counterexample: the single-trip entry point returns `None` — a
failure-free return — both for an empty source map and when every source
returns an empty batch, and the round-trip entry point returns `None` (it
does not fail) when every source returns an empty batch; no `NoDataFound`
failure occurs in these three cases. -/
theorem C8_counterexample :
    getTopNTripsFromMultipleSources envW [] none 1 none = .ok none ∧
    getTopNTripsFromMultipleSources envW [(.AZUL, [])] none 1 none = .ok none ∧
    get_best_round_trips_from_multiple_sources envW id [(.AZUL, [])] none none none
      1 none = .ok none :=
  ⟨rfl, rfl, rfl⟩

/-- C8 (amended): only the round-trip entry point fails on an empty source
map (with `ValueError`); when every source returns an empty result, both
entry points return `None` rather than failing, and the single-trip entry
point returns `None` for an empty source map as well. -/
theorem C8_empty_data_amended :
    (∀ (env : Env) (σ : List Entry → List Entry) (cabins : Option (List CABIN))
       (minr maxr : Option Int) (n : Nat) (flt : Option FilterCriteria),
      get_best_round_trips_from_multiple_sources env σ [] cabins minr maxr n flt =
        .error .valueError) ∧
    (∀ (env : Env) (σ : List Entry → List Entry)
       (srcs : List (SOURCE × List RawRecord)) (cabins : Option (List CABIN))
       (minr maxr : Option Int) (n : Nat) (flt : Option FilterCriteria),
      srcs ≠ [] → (∀ s ∈ srcs, s.2 = []) →
      get_best_round_trips_from_multiple_sources env σ srcs cabins minr maxr n flt =
        .ok none) ∧
    (∀ (env : Env) (srcs : List (SOURCE × List RawRecord))
       (cabins : Option (List CABIN)) (n : Nat) (flt : Option FilterCriteria),
      (∀ s ∈ srcs, s.2 = []) →
      getTopNTripsFromMultipleSources env srcs cabins n flt = .ok none) := by
  refine ⟨fun env σ cabins minr maxr n flt => rfl, ?_, ?_⟩
  · intro env σ srcs cabins minr maxr n flt hne hempty
    unfold get_best_round_trips_from_multiple_sources
    rw [if_neg (by simpa [List.isEmpty_iff] using hne)]
    rw [round_source_fold_all_empty hempty]
    simp
  · intro env srcs cabins n flt hempty
    unfold getTopNTripsFromMultipleSources
    by_cases hne : srcs.isEmpty
    · rw [if_pos hne]
    · rw [if_neg hne]
      rw [topn_source_fold_all_empty hempty]
      simp

/-- Witness for the amended C8: the two quantified parts applied at a
concrete one-source map whose batch is empty. -/
theorem C8_empty_data_amended_witness :
    get_best_round_trips_from_multiple_sources envW List.reverse [(.SMILES, [])] none
      none none 2 none = .ok none ∧
    getTopNTripsFromMultipleSources envW [(.SMILES, [])] none 2 none = .ok none :=
  ⟨C8_empty_data_amended.2.1 envW List.reverse [(.SMILES, [])] none none none 2 none
    (by simp) (by intro s hs; obtain rfl := List.mem_singleton.mp hs; rfl),
   C8_empty_data_amended.2.2 envW [(.SMILES, [])] none 2 none
    (by intro s hs; obtain rfl := List.mem_singleton.mp hs; rfl)⟩

/-! ### C9 — the shuffle affects only presentation order -/

/-- Equivalence of two selector results up to presentation order: identical
errors, identical `None`s, or per-cabin pairing dictionaries that are
permutations of one another (the same `(city pairing, candidate list)`
entries, cabins in the same order). -/
def selectionEquiv :
    Except PyErr (Option RoundMap) → Except PyErr (Option RoundMap) → Prop
  | .error e₁, .error e₂ => e₁ = e₂
  | .ok none, .ok none => True
  | .ok (some m₁), .ok (some m₂) =>
      List.Forall₂ (fun c₁ c₂ => c₁.1 = c₂.1 ∧ c₁.2.Perm c₂.2) m₁ m₂
  | _, _ => False

/-- The same relation on the cabin-loop results. -/
def goEquiv : Except PyErr RoundMap → Except PyErr RoundMap → Prop
  | .error e₁, .error e₂ => e₁ = e₂
  | .ok m₁, .ok m₂ => List.Forall₂ (fun c₁ c₂ => c₁.1 = c₂.1 ∧ c₁.2.Perm c₂.2) m₁ m₂
  | _, _ => False

theorem fc_round_go_equiv (σ1 σ2 : List Entry → List Entry)
    (h1 : ∀ l, (σ1 l).Perm l) (h2 : ∀ l, (σ2 l).Perm l) (n : Nat) :
    ∀ m : RoundMap, goEquiv (fc_round_go σ1 n m).1 (fc_round_go σ2 n m).1
  | [] => by simp [fc_round_go, goEquiv]
  | (cabin, a) :: rest => by
    unfold fc_round_go
    cases hs : cabin_selection n a with
    | error e => exact rfl
    | ok osel =>
      cases osel with
      | none => exact fc_round_go_equiv σ1 σ2 h1 h2 n rest
      | some sel =>
        have ih := fc_round_go_equiv σ1 σ2 h1 h2 n rest
        dsimp only
        cases hr1 : (fc_round_go σ1 n rest).1 with
        | error e1 =>
          cases hr2 : (fc_round_go σ2 n rest).1 with
          | error e2 =>
            rw [hr1, hr2] at ih
            exact ih
          | ok m2 =>
            rw [hr1, hr2] at ih
            exact ih.elim
        | ok m1 =>
          cases hr2 : (fc_round_go σ2 n rest).1 with
          | error e2 =>
            rw [hr1, hr2] at ih
            exact ih.elim
          | ok m2 =>
            rw [hr1, hr2] at ih
            exact List.Forall₂.cons
              ⟨rfl, ((h1 sel).map _).trans ((h2 sel).map _).symm⟩ ih

/-- C9: for any two permutation-producing shuffle functions (two runs of the
engine with the shuffle's randomness fixed differently, or the same seed
twice), the round-trip selector returns the same selection — the same
errors, the same selected cabin entries, and for each cabin the same set of
`(city pairing, surviving candidate list)` entries — differing at most in
the order the pairings are returned. -/
theorem C9_shuffle_presentation_only (σ1 σ2 : List Entry → List Entry)
    (h1 : ∀ l, (σ1 l).Perm l) (h2 : ∀ l, (σ2 l).Perm l) (n : Nat)
    (input : RoundMap) :
    selectionEquiv (find_cheapest_for_round_trips σ1 input n).1
      (find_cheapest_for_round_trips σ2 input n).1 := by
  unfold find_cheapest_for_round_trips
  by_cases he : input.isEmpty
  · simp only [if_pos he]
    exact trivial
  · simp only [if_neg he]
    have hgo := fc_round_go_equiv σ1 σ2 h1 h2 n input
    cases hg1 : fc_round_go σ1 n input with
    | mk r1 post1 =>
      cases hg2 : fc_round_go σ2 n input with
      | mk r2 post2 =>
        rw [hg1, hg2] at hgo
        cases r1 with
        | error e1 =>
          cases r2 with
          | error e2 => exact hgo
          | ok m2 => exact hgo.elim
        | ok m1 =>
          cases r2 with
          | error e2 => exact hgo.elim
          | ok m2 => exact hgo

/-- A concrete candidate pair used by the selector witnesses. -/
def tAW : summary_trip := ⟨"a1", "Acity", 10, some 10⟩

/-- The matching return leg. -/
def tBW : summary_trip := ⟨"a2", "Bcity", 10, some 10⟩

/-- A concrete round-trip candidate of combined cost 20. -/
def rtAW : summary_round_trip := ⟨tAW, tBW⟩

/-- A dearer candidate of combined cost 30. -/
def rtDearW : summary_round_trip := ⟨⟨"d1", "Acity", 15, some 10⟩, ⟨"d2", "Bcity", 15, some 10⟩⟩

/-- A concrete selector input map. -/
def rtMapW : RoundMap := [(.Y, [(("Acity", "Bcity"), [rtAW, rtDearW])])]

/-- Witness for C9: the identity shuffle and the reversing shuffle give
equivalent selections on a concrete input. -/
theorem C9_shuffle_presentation_only_witness :
    selectionEquiv (find_cheapest_for_round_trips id rtMapW 1).1
      (find_cheapest_for_round_trips List.reverse rtMapW 1).1 :=
  C9_shuffle_presentation_only id List.reverse (fun l => List.Perm.refl l)
    (fun l => l.reverse_perm) 1 rtMapW

/-! ### C10 — the selector sorts its input lists in place -/

theorem cabin_post_rel (a : RoundAssoc) :
    List.Forall₂ (fun kv₁ kv₂ => kv₁.1 = kv₂.1 ∧ kv₂.2.Perm kv₁.2) a (cabin_post a) := by
  induction a with
  | nil => exact List.Forall₂.nil
  | cons kv rest ih =>
    exact List.Forall₂.cons ⟨rfl, sortLe_perm rt_le kv.2⟩ ih

theorem forall₂_self_of {α : Type _} {r : α → α → Prop} :
    ∀ {l : List α}, (∀ x ∈ l, r x x) → List.Forall₂ r l l
  | [], _ => List.Forall₂.nil
  | x :: xs, h =>
    List.Forall₂.cons (h x (List.mem_cons_self x xs))
      (forall₂_self_of (fun y hy => h y (List.mem_cons_of_mem x hy)))

/-- The relation between the caller's map before and after the selector runs:
same cabins, same pairing keys, and each candidate list a permutation of its
former self. -/
def PostRel (input post : RoundMap) : Prop :=
  List.Forall₂ (fun c₁ c₂ => c₁.1 = c₂.1 ∧
    List.Forall₂ (fun kv₁ kv₂ => kv₁.1 = kv₂.1 ∧ kv₂.2.Perm kv₁.2) c₁.2 c₂.2)
    input post

theorem fc_round_go_post (σ : List Entry → List Entry) (n : Nat) :
    ∀ m : RoundMap, PostRel m (fc_round_go σ n m).2
  | [] => List.Forall₂.nil
  | (cabin, a) :: rest => by
    unfold fc_round_go
    cases hs : cabin_selection n a with
    | error e =>
      exact List.Forall₂.cons ⟨rfl, cabin_post_rel a⟩
        (forall₂_self_of (fun c _ =>
          ⟨rfl, forall₂_self_of (fun kv _ => ⟨rfl, List.Perm.refl _⟩)⟩))
    | ok osel =>
      cases osel with
      | none => exact List.Forall₂.cons ⟨rfl, cabin_post_rel a⟩ (fc_round_go_post σ n rest)
      | some sel =>
        exact List.Forall₂.cons ⟨rfl, cabin_post_rel a⟩ (fc_round_go_post σ n rest)

/-- C10 counterexample: a concrete input map whose single candidate list is
`[dear, cheap]`; after a successful selector call the caller's list has been
reordered in place to `[cheap, dear]` — the input map is not left unchanged. -/
theorem C10_counterexample :
    (find_cheapest_for_round_trips id [(.Y, [(("Acity", "Bcity"), [rtDearW, rtAW])])]
      1).2 = [(.Y, [(("Acity", "Bcity"), [rtAW, rtDearW])])] ∧
    (find_cheapest_for_round_trips id [(.Y, [(("Acity", "Bcity"), [rtDearW, rtAW])])]
      1).1 = .ok (some [(.Y, [(("Acity", "Bcity"), [rtAW])])]) ∧
    [(.Y, [(("Acity", "Bcity"), [rtAW, rtDearW])])] ≠
      [(CABIN.Y, [(("Acity", "Bcity"), [rtDearW, rtAW])])] := by
  refine ⟨?_, ?_, by decide⟩
  · norm_num [find_cheapest_for_round_trips, fc_round_go, cabin_selection,
      sorted_cities_of, flattened_fold, pairing_entry, band_filter, sort_rt, sortLe,
      insertLe, combined_cost, rt_le, score, score_fold, trip_invalid,
      ScoreVal.divNat, fc_shuffled, entry_le, cabin_post, rtAW, rtDearW, tAW, tBW]
  · norm_num [find_cheapest_for_round_trips, fc_round_go, cabin_selection,
      sorted_cities_of, flattened_fold, pairing_entry, band_filter, sort_rt, sortLe,
      insertLe, combined_cost, rt_le, score, score_fold, trip_invalid,
      ScoreVal.divNat, fc_shuffled, entry_le, cabin_post, rtAW, rtDearW, tAW, tBW]

/-- C10 (amended): `find_cheapest_for_round_trips` mutates its input map by
sorting every processed cabin's candidate lists in place by combined cost:
after the call the map has the same cabins and the same pairing keys, and
each candidate list holds exactly the same candidates, but possibly in a
different (sorted) order.  No `SummaryTrip` or `RoundTripCandidate` itself is
mutated. -/
theorem C10_inplace_sort_amended (σ : List Entry → List Entry) (input : RoundMap)
    (n : Nat) : PostRel input (find_cheapest_for_round_trips σ input n).2 := by
  unfold find_cheapest_for_round_trips
  by_cases he : input.isEmpty
  · rw [if_pos he]
    exact forall₂_self_of (fun c _ =>
      ⟨rfl, forall₂_self_of (fun kv _ => ⟨rfl, List.Perm.refl _⟩)⟩)
  · rw [if_neg he]
    have hpost := fc_round_go_post σ n input
    cases hg : fc_round_go σ n input with
    | mk r post =>
      rw [hg] at hpost
      cases r with
      | error e => exact hpost
      | ok acc => exact hpost

/-! ### C5 — lemmas tracing selector output back to the band filter -/

theorem rt_le_trans (a b c : summary_round_trip) (h1 : rt_le a b = true)
    (h2 : rt_le b c = true) : rt_le a c = true := by
  simp only [rt_le, decide_eq_true_eq] at *
  omega

theorem rt_le_total (a b : summary_round_trip) :
    rt_le a b = true ∨ rt_le b a = true := by
  simp only [rt_le, decide_eq_true_eq]
  omega

theorem rt_le_refl (a : summary_round_trip) : rt_le a a = true := by
  simp [rt_le]

theorem fc_round_go_out (σ : List Entry → List Entry) (n : Nat) :
    ∀ (m : RoundMap) (acc : RoundMap), (fc_round_go σ n m).1 = .ok acc →
      ∀ ca ∈ acc, ∃ a, (ca.1, a) ∈ m ∧
        ∃ sel, cabin_selection n a = .ok (some sel) ∧ ca.2 = fc_shuffled σ sel
  | [], acc, h => by
    unfold fc_round_go at h
    cases h
    intro ca hca
    cases hca
  | (cabin, a) :: rest, acc, h => by
    unfold fc_round_go at h
    cases hs : cabin_selection n a with
    | error e =>
      rw [hs] at h
      cases h
    | ok osel =>
      rw [hs] at h
      cases osel with
      | none =>
        intro ca hca
        obtain ⟨a', hmem, sel, hsel, hshuf⟩ := fc_round_go_out σ n rest acc h ca hca
        exact ⟨a', List.mem_cons_of_mem _ hmem, sel, hsel, hshuf⟩
      | some sel =>
        dsimp only at h
        cases hr : (fc_round_go σ n rest).1 with
        | error e => rw [hr] at h; cases h
        | ok acc' =>
          rw [hr] at h
          cases h
          intro ca hca
          rcases List.mem_cons.mp hca with rfl | hca'
          · exact ⟨a, List.mem_cons_self _ _, sel, hs, rfl⟩
          · obtain ⟨a', hmem, sel', hsel', hshuf⟩ :=
              fc_round_go_out σ n rest acc' hr ca hca'
            exact ⟨a', List.mem_cons_of_mem _ hmem, sel', hsel', hshuf⟩

theorem cabin_selection_some {n : Nat} {a : RoundAssoc} {sel : List Entry}
    (h : cabin_selection n a = .ok (some sel)) :
    ∃ fl, flattened_fold (sorted_cities_of a) = .ok fl ∧
      sel = (sortLe entry_le fl).take n := by
  unfold cabin_selection at h
  by_cases he : a.isEmpty
  · rw [if_pos he] at h
    cases h
  · rw [if_neg he] at h
    by_cases hsc : (sorted_cities_of a).isEmpty
    · rw [if_pos hsc] at h
      cases h
    · rw [if_neg hsc] at h
      cases hf : flattened_fold (sorted_cities_of a) with
      | error e => rw [hf] at h; cases h
      | ok fl =>
        rw [hf] at h
        cases h
        exact ⟨fl, rfl, rfl⟩

theorem flattened_fold_mem :
    ∀ {sc : RoundAssoc} {fl : List Entry}, flattened_fold sc = .ok fl →
      ∀ ent ∈ fl, ∃ kv ∈ sc, pairing_entry kv.1 kv.2 = .ok (some ent) := by
  intro sc
  induction sc with
  | nil =>
    intro fl h ent hent
    unfold flattened_fold at h
    cases h
    cases hent
  | cons kv rest ih =>
    intro fl h ent hent
    unfold flattened_fold at h
    cases hp : pairing_entry kv.1 kv.2 with
    | error e => rw [hp] at h; cases h
    | ok oe =>
      rw [hp] at h
      cases hrest : flattened_fold rest with
      | error e => rw [hrest] at h; cases h
      | ok acc =>
        rw [hrest] at h
        cases h
        cases oe with
        | none =>
          obtain ⟨kv', hkv', hp'⟩ := ih hrest ent hent
          exact ⟨kv', List.mem_cons_of_mem _ hkv', hp'⟩
        | some ent' =>
          rcases List.mem_cons.mp hent with rfl | hent'
          · exact ⟨kv, List.mem_cons_self _ _, hp⟩
          · obtain ⟨kv', hkv', hp'⟩ := ih hrest ent hent'
            exact ⟨kv', List.mem_cons_of_mem _ hkv', hp'⟩

theorem pairing_entry_some {k : String × String} {l : List summary_round_trip}
    {ent : Entry} (h : pairing_entry k l = .ok (some ent)) :
    ∃ filtered, band_filter l = .ok filtered ∧ ent.2.1 = filtered := by
  unfold pairing_entry at h
  cases hb : band_filter l with
  | error e => rw [hb] at h; cases h
  | ok filtered =>
    simp only [hb] at h
    by_cases hemp : filtered.isEmpty
    · rw [if_pos hemp] at h
      cases h
    · rw [if_neg hemp] at h
      cases hs : score (filtered.map (fun t => t.outbound) ++
          filtered.map (fun t => t.return_)) with
      | error e => rw [hs] at h; cases h
      | ok s =>
        rw [hs] at h
        cases h
        exact ⟨filtered, rfl, rfl⟩

theorem band_filter_some {l : List summary_round_trip}
    {filtered : List summary_round_trip} (h : band_filter l = .ok filtered) :
    ∃ t0 rest, l = t0 :: rest ∧ combined_cost t0 ≠ 0 ∧
      filtered = l.filter (fun t =>
        decide ((combined_cost t : Rat) / (combined_cost t0 : Rat) ≤ 11 / 10)) := by
  cases l with
  | nil =>
    unfold band_filter at h
    cases h
  | cons t0 rest =>
    unfold band_filter at h
    dsimp only at h
    by_cases hz : combined_cost t0 = 0
    · rw [if_pos hz] at h
      cases h
    · rw [if_neg hz] at h
      cases h
      exact ⟨t0, rest, rfl, hz, rfl⟩

theorem sorted_cities_mem {a : RoundAssoc} {kv : (String × String) × List summary_round_trip}
    (h : kv ∈ sorted_cities_of a) :
    ∃ kvA ∈ a, kv = (kvA.1, (sort_rt kvA.2).take 5) := by
  unfold sorted_cities_of at h
  rcases List.mem_map.mp h with ⟨kvA, hkvA, rfl⟩
  exact ⟨kvA, List.mem_of_mem_filter hkvA, rfl⟩

/-! ### C5 — claim theorem -/

/-- C5: whenever the round-trip selector succeeds with a non-`None` result
(under a permutation-producing shuffle and positive combined costs), every
retained city pairing's surviving candidate list has a baseline cost — the
combined cost of the cheapest surviving candidate, which is also the
cheapest of the list truncated to the 5 cheapest — such that every
surviving candidate's combined cost is at most `1.1 ×` that baseline; no
candidate priced above the band is retained.  (The source's float division
`cost / baseline <= 1.1` is modelled as exact rational arithmetic.) -/
theorem C5_quality_band (σ : List Entry → List Entry) (hσ : ∀ l, (σ l).Perm l)
    (input : RoundMap) (n : Nat)
    (hpos : ∀ ca ∈ input, ∀ kv ∈ ca.2, ∀ rt ∈ kv.2, 0 < combined_cost rt)
    (out : RoundMap)
    (hok : (find_cheapest_for_round_trips σ input n).1 = .ok (some out)) :
    ∀ ca ∈ out, ∀ kv ∈ ca.2, ∃ base : Int, 0 < base ∧
      (∃ rt ∈ kv.2, combined_cost rt = base) ∧
      (∀ rt ∈ kv.2, base ≤ combined_cost rt ∧
        (combined_cost rt : Rat) ≤ 11 / 10 * base) := by
  intro ca hca kv hkv
  -- step 1: the selector's success comes from the cabin loop
  have hgo : (fc_round_go σ n input).1 = .ok out := by
    unfold find_cheapest_for_round_trips at hok
    by_cases he : input.isEmpty
    · rw [if_pos he] at hok
      cases hok
    · rw [if_neg he] at hok
      cases hg : fc_round_go σ n input with
      | mk r post =>
        rw [hg] at hok
        cases r with
        | error e =>
          dsimp only at hok
          cases hok
        | ok acc =>
          dsimp only at hok
          injection hok with h1
          injection h1 with h2
          rw [h2.symm]
  obtain ⟨a, hmem, sel, hsel, hshuf⟩ := fc_round_go_out σ n input out hgo ca hca
  -- step 2: the pairing entry behind kv
  rw [hshuf] at hkv
  unfold fc_shuffled at hkv
  rcases List.mem_map.mp hkv with ⟨ent, hent, rfl⟩
  have hent_sel : ent ∈ sel := (hσ sel).mem_iff.mp hent
  obtain ⟨fl, hfl, rfl⟩ := cabin_selection_some hsel
  have hent_fl : ent ∈ fl :=
    mem_sortLe.mp (List.take_subset _ _ hent_sel)
  obtain ⟨kv0, hkv0, hpe⟩ := flattened_fold_mem hfl ent hent_fl
  obtain ⟨filtered, hband, hent_f⟩ := pairing_entry_some hpe
  obtain ⟨kvA, hkvA, hkv0_eq⟩ := sorted_cities_mem hkv0
  obtain ⟨t0, rest0, hcons, hz, hfiltered⟩ := band_filter_some hband
  -- step 3: t0 is the head of the sorted truncated list, hence minimal
  have hkv02 : kv0.2 = (sort_rt kvA.2).take 5 := by rw [hkv0_eq]
  have hsorthead : ∃ tail, sort_rt kvA.2 = t0 :: tail := by
    cases hsort : sort_rt kvA.2 with
    | nil =>
      rw [hkv02, hsort] at hcons
      cases hcons
    | cons h0 tail =>
      rw [hkv02, hsort] at hcons
      simp only [List.take_succ_cons] at hcons
      injection hcons with h1 _
      exact ⟨tail, by rw [h1]⟩
  obtain ⟨tail, hsort⟩ := hsorthead
  have hmin : ∀ x ∈ sort_rt kvA.2, combined_cost t0 ≤ combined_cost x := by
    intro x hx
    have := sortLe_head_min rt_le_trans rt_le_total rt_le_refl hsort x hx
    simpa [rt_le, decide_eq_true_eq] using this
  -- step 4: positivity of the baseline
  have hsub_t0 : t0 ∈ kvA.2 := by
    have : t0 ∈ (sort_rt kvA.2).take 5 := by
      rw [← hkv02, hcons]
      exact List.mem_cons_self _ _
    exact (sortLe_perm rt_le kvA.2).mem_iff.mp (List.take_subset _ _ this)
  have hbase_pos : 0 < combined_cost t0 := hpos (ca.1, a) hmem kvA hkvA t0 hsub_t0
  have hbase_posQ : (0 : Rat) < (combined_cost t0 : Rat) := by
    exact_mod_cast hbase_pos
  refine ⟨combined_cost t0, hbase_pos, ?_, ?_⟩
  · -- t0 itself survives the band filter
    refine ⟨t0, ?_, rfl⟩
    rw [hent_f, hfiltered]
    refine List.mem_filter.mpr ⟨by rw [hcons]; exact List.mem_cons_self _ _, ?_⟩
    simp only [decide_eq_true_eq]
    rw [div_self (ne_of_gt hbase_posQ)]
    norm_num
  · intro rt hrt
    rw [hent_f, hfiltered] at hrt
    obtain ⟨hrt_mem, hrt_cond⟩ := List.mem_filter.mp hrt
    have hrt_sorted : rt ∈ sort_rt kvA.2 := by
      rw [hkv02] at hrt_mem
      exact List.take_subset _ _ hrt_mem
    constructor
    · exact hmin rt hrt_sorted
    · have hcond : (combined_cost rt : Rat) / (combined_cost t0 : Rat) ≤ 11 / 10 := by
        simpa [decide_eq_true_eq] using hrt_cond
      calc (combined_cost rt : Rat)
          = (combined_cost rt : Rat) / (combined_cost t0 : Rat) *
              (combined_cost t0 : Rat) := by
            field_simp
        _ ≤ 11 / 10 * (combined_cost t0 : Rat) := by
            exact mul_le_mul_of_nonneg_right hcond (le_of_lt hbase_posQ)

/-- Witness for C5 at the concrete map `rtMapW`: the selector succeeds, the
surviving list is `[rtAW]`, and the quality band holds there with baseline
20. -/
theorem C5_quality_band_witness :
    ∃ base : Int, 0 < base ∧
      (∃ rt ∈ [rtAW], combined_cost rt = base) ∧
      (∀ rt ∈ [rtAW], base ≤ combined_cost rt ∧
        (combined_cost rt : Rat) ≤ 11 / 10 * base) :=
  C5_quality_band id (fun l => List.Perm.refl l) rtMapW 1 (by decide)
    [(.Y, [(("Acity", "Bcity"), [rtAW])])]
    (by norm_num [find_cheapest_for_round_trips, fc_round_go, cabin_selection,
      sorted_cities_of, flattened_fold, pairing_entry, band_filter, sort_rt, sortLe,
      insertLe, combined_cost, rt_le, score, score_fold, trip_invalid,
      ScoreVal.divNat, fc_shuffled, entry_le, rtMapW, rtAW, rtDearW, tAW, tBW])
    (.Y, [(("Acity", "Bcity"), [rtAW])]) (List.mem_singleton.mpr rfl)
    (("Acity", "Bcity"), [rtAW]) (List.mem_singleton.mpr rfl)

end FlightFilter
